import Mathlib

/-!
Verification of the Property-Onboarding-Tool orchestration core.

This file shallowly embeds the Python source of the repository
(`src/extraction/data_processor.py`, `src/orchestration/async_engine.py`,
`src/orchestration/async_engine_memory.py`, `src/orchestration/job_queue_memory.py`,
`src/orchestration/job_queue.py`, `src/storage/memory_store.py`) into Lean.
Python JSON values are modelled by the `Json` inductive below; Python `dict`s
are insertion-ordered association lists; in-place mutation is modelled by
explicit state passing (functions return the updated structures).
-/

namespace POT
mutual

/-- Python JSON-ish values as they appear in the extraction pipeline.
Python `int` and `float` are kept distinct because `str()` renders them
differently (`"150"` vs `"150.0"`). Arrays and objects hold their members
through the mutually defined `JsonList`/`JsonObj` (isomorphic to lists, see
`jarr`/`jobj`/`toList`), which keeps recursion over values structural. -/
inductive Json where
  | null : Json
  | bool (b : Bool) : Json
  | int (n : ℤ) : Json
  | float (q : ℚ) : Json
  | str (s : String) : Json
  | arr (xs : JsonList) : Json
  | obj (kvs : JsonObj) : Json
  deriving DecidableEq

/-- The members of a JSON array. -/
inductive JsonList where
  | nil : JsonList
  | cons (hd : Json) (tl : JsonList) : JsonList
  deriving DecidableEq

/-- The insertion-ordered entries of a JSON object (a Python `dict`). -/
inductive JsonObj where
  | nil : JsonObj
  | cons (k : String) (v : Json) (tl : JsonObj) : JsonObj
  deriving DecidableEq

end

/-- Object entries as an ordinary list of pairs. -/
abbrev Obj := List (String × Json)

def JsonList.toList : JsonList → List Json
  | .nil => []
  | .cons h t => h :: t.toList

def JsonObj.toList : JsonObj → Obj
  | .nil => []
  | .cons k v t => (k, v) :: t.toList

def JsonList.ofList : List Json → JsonList
  | [] => .nil
  | h :: t => .cons h (ofList t)

def JsonObj.ofList : Obj → JsonObj
  | [] => .nil
  | (k, v) :: t => .cons k v (ofList t)

/-- Build an array value from a list. -/
def Json.jarr (l : List Json) : Json := .arr (JsonList.ofList l)

/-- Build an object value from a list of entries. -/
def Json.jobj (l : Obj) : Json := .obj (JsonObj.ofList l)

namespace Json

/-- Python truthiness (`bool(v)`). -/
def truthy : Json → Bool
  | .null => false
  | .bool b => b
  | .int n => n ≠ 0
  | .float q => q ≠ 0
  | .str s => s ≠ ""
  | .arr .nil => false
  | .arr _ => true
  | .obj .nil => false
  | .obj _ => true

/-- `d.get(k)` on an insertion-ordered dict: first matching key. -/
def getKey (kvs : Obj) (k : String) : Option Json :=
  (kvs.find? (fun p => p.1 = k)).map Prod.snd

/-- `d.get(k, default)`. -/
def getD (kvs : Obj) (k : String) (dflt : Json) : Json :=
  (getKey kvs k).getD dflt

/-- `d[k] = v`: replace the first occurrence of `k` in place, else append. -/
def setKey : Obj → String → Json → Obj
  | [], k, v => [(k, v)]
  | (k', v') :: rest, k, v =>
    if k' = k then (k', v) :: rest else (k', v') :: setKey rest k v

/-- `k in d`. -/
def hasKey (kvs : Obj) (k : String) : Bool :=
  kvs.any (fun p => p.1 = k)

/-- View a value as a dict when it is one (`isinstance(v, dict)`). -/
def asObj : Json → Option Obj
  | .obj kvs => some kvs.toList
  | _ => none

/-- View a value as a list when it is one (`isinstance(v, list)`). -/
def asArr : Json → Option (List Json)
  | .arr xs => some xs.toList
  | _ => none

/-- `v.get(k)` where `v` may not be a dict (then Python raises; callers check). -/
def objGetD (v : Json) (k : String) (dflt : Json) : Json :=
  match v with
  | .obj kvs => getD kvs.toList k dflt
  | _ => dflt

end Json

/-! ### Python string primitives, re-implemented over character lists so that
they both execute and reduce in the kernel -/

/-- Python `str.strip()` (also Lean-side `trim`): drop whitespace from both
ends. -/
def pyStrip (s : String) : String :=
  String.mk (((s.toList.dropWhile Char.isWhitespace).reverse.dropWhile
    Char.isWhitespace).reverse)

/-- ASCII lowercasing of one character (the pipeline's names are ASCII). -/
def charLower (c : Char) : Char :=
  if 'A' ≤ c ∧ c ≤ 'Z' then Char.ofNat (c.toNat + 32) else c

/-- Python `str.lower()`. -/
def pyLower (s : String) : String := String.mk (s.toList.map charLower)

/-- Lexicographic `<` on character lists by code point (Python string `<`). -/
def charsLt : List Char → List Char → Bool
  | [], [] => false
  | [], _ :: _ => true
  | _ :: _, [] => false
  | a :: as, b :: bs =>
    if a.toNat < b.toNat then true
    else if b.toNat < a.toNat then false
    else charsLt as bs

def strLt (a b : String) : Bool := charsLt a.toList b.toList

def strLe (a b : String) : Bool := !(strLt b a)

def startsWithChars : List Char → List Char → Bool
  | [], _ => true
  | _ :: _, [] => false
  | p :: ps, h :: hs => p = h && startsWithChars ps hs

def containsChars : List Char → List Char → Bool
  | hay, [] => (let _ := hay; true)
  | [], _ :: _ => false
  | h :: hs, p :: ps => startsWithChars (p :: ps) (h :: hs) || containsChars hs (p :: ps)

/-- Python `pat in hay` on strings. -/
def strContains (hay pat : String) : Bool := containsChars hay.toList pat.toList

/-- Split a character list at every character satisfying `sep` (keeping empty
chunks, like Python `str.split(sep)` with an explicit separator). -/
def splitChars (sep : Char → Bool) : List Char → List (List Char)
  | [] => [[]]
  | c :: rest =>
    let r := splitChars sep rest
    if sep c then [] :: r
    else
      match r with
      | [] => [[c]]
      | chunk :: chunks => (c :: chunk) :: chunks

/-- Decimal digits of a natural number (most significant first); the first
argument is fuel (`n` itself suffices). -/
def natDigitsAux : ℕ → ℕ → List Char
  | 0, _ => []
  | _ + 1, 0 => []
  | fuel + 1, n =>
    natDigitsAux fuel (n / 10) ++ [Char.ofNat (n % 10 + 48)]

/-- Decimal representation of a natural number. -/
def natRepr (n : ℕ) : String :=
  if n = 0 then "0" else String.mk (natDigitsAux n n)

/-- Decimal representation of an integer (Python `str(int)`). -/
def intRepr (n : ℤ) : String :=
  if n < 0 then "-" ++ natRepr n.natAbs else natRepr n.natAbs

def charsAllDigits (cs : List Char) : Bool := cs.all Char.isDigit

/-- Value of a list of decimal digit characters. -/
def digitsToNat (cs : List Char) : ℕ :=
  cs.foldl (fun acc c => acc * 10 + (c.toNat - 48)) 0

/-- A numeric view of scalars used by Python `==` (which identifies
`True == 1 == 1.0`). -/
def numView : Json → Option ℚ
  | .bool b => some (if b then 1 else 0)
  | .int n => some (n : ℚ)
  | .float q => some q
  | _ => none

mutual

/-- Python `==` on JSON-ish values: numeric types compare by value,
containers compare element-wise, everything else structurally. Python
`dict` equality is order-insensitive, but every dict this pipeline compares
has a fixed key layout, for which element-wise comparison is faithful. -/
def pyEq : Json → Json → Bool
  | .null, .null => true
  | .str a, .str b => a = b
  | .arr xs, .arr ys => pyEqList xs ys
  | .obj xs, .obj ys => pyEqObj xs ys
  | a, b =>
    match numView a, numView b with
    | some x, some y => x = y
    | _, _ => false

def pyEqList : JsonList → JsonList → Bool
  | .nil, .nil => true
  | .cons x xs, .cons y ys => pyEq x y && pyEqList xs ys
  | _, _ => false

def pyEqObj : JsonObj → JsonObj → Bool
  | .nil, .nil => true
  | .cons k v xs, .cons k' v' ys => k = k' && pyEq v v' && pyEqObj xs ys
  | _, _ => false

end

/-- `str()` of a Python float, computed from the reduced numerator and
denominator: integral values render as `"n.0"`, other terminating decimals
with their digits (this matches CPython `repr` for the simple numbers this
pipeline produces). -/
def pyFloatStr (q : ℚ) : String :=
  let sign : String := if q.num < 0 then "-" else ""
  let n := q.num.natAbs
  let d := q.den
  sign ++
  if d = 1 then natRepr n ++ ".0"
  else
    match (List.range 18).find? (fun k => d ∣ 10 ^ (k + 1)) with
    | some k =>
      let scaled : ℕ := n * (10 ^ (k + 1) / d)
      let digits := (natRepr scaled).toList
      let digits := if digits.length ≤ k + 1 then
        List.replicate (k + 2 - digits.length) '0' ++ digits else digits
      let intPart := digits.take (digits.length - (k + 1))
      let fracPart := digits.drop (digits.length - (k + 1))
      String.mk intPart ++ "." ++ String.mk fracPart
    | none => natRepr n ++ "/" ++ natRepr d

mutual

/-- Python `str()` (members of containers are rendered with `repr`, which
quotes strings; the quoting is inlined in `pyStrList`/`pyStrObj` so that the
mutual recursion stays structural). -/
def pyStr : Json → String
  | .null => "None"
  | .bool b => if b then "True" else "False"
  | .int n => intRepr n
  | .float q => pyFloatStr q
  | .str s => s
  | .arr xs => "[" ++ pyStrList xs ++ "]"
  | .obj kvs => "\x7b" ++ pyStrObj kvs ++ "\x7d"

def pyStrList : JsonList → String
  | .nil => ""
  | .cons x .nil =>
    (match x with | .str s => "'" ++ s ++ "'" | _ => pyStr x)
  | .cons x xs =>
    (match x with | .str s => "'" ++ s ++ "'" | _ => pyStr x) ++ ", " ++ pyStrList xs

def pyStrObj : JsonObj → String
  | .nil => ""
  | .cons k v .nil =>
    "'" ++ k ++ "': " ++ (match v with | .str s => "'" ++ s ++ "'" | _ => pyStr v)
  | .cons k v kvs =>
    "'" ++ k ++ "': " ++ (match v with | .str s => "'" ++ s ++ "'" | _ => pyStr v) ++
      ", " ++ pyStrObj kvs

end

/-- Python `repr()` on these values (quotes strings, else `str()`). -/
def pyRepr : Json → String
  | .str s => "'" ++ s ++ "'"
  | v => pyStr v

/-- Parse a simple decimal numeral (used to model Python `float(str)`). -/
def parseDecimal (s : String) : Option ℚ :=
  let cs := (pyStrip s).toList
  let (neg, cs) := match cs with
    | '-' :: rest => (true, rest)
    | _ => (false, cs)
  match splitChars (fun c => c = '.') cs with
  | [intPart] =>
    if charsAllDigits intPart ∧ intPart ≠ [] then
      some ((if neg then -1 else 1) * (digitsToNat intPart : ℚ))
    else none
  | [intPart, fracPart] =>
    if charsAllDigits intPart ∧ charsAllDigits fracPart ∧
        (intPart ≠ [] ∨ fracPart ≠ []) then
      let ip : ℚ := (digitsToNat intPart : ℚ)
      let fp : ℚ := (digitsToNat fracPart : ℚ) / (10 : ℚ) ^ fracPart.length
      some ((if neg then -1 else 1) * (ip + fp))
    else none
  | _ => none

/-- Python `float(v)`; `none` models the `TypeError`/`ValueError` paths
(callers catch and skip). -/
def pyFloat : Json → Option ℚ
  | .int n => some (n : ℚ)
  | .float q => some q
  | .bool b => some (if b then 1 else 0)
  | .str s => parseDecimal s
  | _ => none

/-- `v is not None and str(v).strip() != ""`, the "filled/non-empty"
test used by completeness counting and `_augment_location.choose`. -/
def pyFilled : Json → Bool
  | .null => false
  | .str s => pyStrip s ≠ ""
  | _ => true

/-! ### `_clean_merged_data`'s recursive `clean_dict` -/

/-- The scalar branch of `clean_dict`:
`obj if obj and str(obj).strip() else None`. -/
def keepScalar : Json → Bool
  | .str s => pyStrip s ≠ ""
  | v => v.truthy

/-- `value is None or value == ""` (the pre-filter inside `clean_dict`'s
dict branch). -/
def isNoneOrEmptyStr : Json → Bool
  | .null => true
  | .str s => s = ""
  | _ => false

mutual

/-- `clean_dict`: recursively remove falsy / whitespace-only values;
`none` models Python returning `None` for a fully-empty value. -/
def cleanJson : Json → Option Json
  | .obj kvs =>
    match cleanObjEntries kvs with
    | [] => none
    | c => some (.jobj c)
  | .arr xs =>
    match cleanArrEntries xs with
    | [] => none
    | c => some (.jarr c)
  | v => if keepScalar v then some v else none

/-- The dict branch: an entry survives when its value passes the
`is not None and != ""` pre-filter and cleans to something non-empty. -/
def cleanObjEntries : JsonObj → Obj
  | .nil => []
  | .cons k v rest =>
    (if ¬ isNoneOrEmptyStr v then
      match cleanJson v with
      | some cv => [(k, cv)]
      | none => []
    else []) ++ cleanObjEntries rest

def cleanArrEntries : JsonList → List Json
  | .nil => []
  | .cons v rest =>
    (match cleanJson v with
      | some cv => [cv]
      | none => []) ++ cleanArrEntries rest

end

mutual

/-- A value is clean when no nested entry is falsy or whitespace-only
(every object/array is non-empty with clean members, scalars pass
`keepScalar`). -/
def isClean : Json → Bool
  | .obj .nil => false
  | .obj kvs => isCleanObj kvs
  | .arr .nil => false
  | .arr xs => isCleanArr xs
  | v => keepScalar v

def isCleanObj : JsonObj → Bool
  | .nil => true
  | .cons _ v rest => isClean v && isCleanObj rest

def isCleanArr : JsonList → Bool
  | .nil => true
  | .cons v rest => isClean v && isCleanArr rest

end

/-! ### `_calculate_completeness_with_fields` (field counting) -/

mutual

/-- `(total, filled)` counted by `_calculate_completeness_with_fields.count`
on a dict or list (scalar roots count nothing): every dict entry counts
once, recursing into nested dicts/lists; list items recurse when nested and
count as scalars otherwise. -/
def countFields : Json → ℕ × ℕ
  | .obj kvs => countFieldsObj kvs
  | .arr xs => countFieldsArr xs
  | _ => (0, 0)

def countFieldsObj : JsonObj → ℕ × ℕ
  | .nil => (0, 0)
  | .cons _ v rest =>
    let sub := match v with
      | .obj _ | .arr _ => countFields v
      | _ => (0, 0)
    let r := countFieldsObj rest
    (1 + sub.1 + r.1, (if pyFilled v then 1 else 0) + sub.2 + r.2)

def countFieldsArr : JsonList → ℕ × ℕ
  | .nil => (0, 0)
  | .cons v rest =>
    let here : ℕ × ℕ := match v with
      | .obj _ | .arr _ => countFields v
      | _ => (1, if pyFilled v then 1 else 0)
    let r := countFieldsArr rest
    (here.1 + r.1, here.2 + r.2)

end

/-- Overall completeness: `filled / total`, `0.0` when nothing counted. -/
def completeness (j : Json) : ℚ :=
  let c := countFields j
  if c.1 = 0 then 0 else (c.2 : ℚ) / (c.1 : ℚ)

/-! ### `PropertyDataProcessor._resolve_basic_info_conflicts` -/

/-- Result of `_resolve_basic_info_conflicts`; `err` models an uncaught
`AttributeError` (`.get` on a non-dict, or `.strip()` on a truthy non-string
conflicting value), which aborts the whole merge. -/
structure ResolveOut where
  basicInfo : Json
  found : ℕ
  resolved : ℕ
  err : Bool

/-- The fields compared between node 1 `basic_info` and node 4
`property_level`. -/
def commonFields : List String := ["name", "guarantor_required", "source", "source_link"]

/-- State of the `common_fields` walk: current node-1 dict, conflict
counters, and the exception flag. -/
structure ResolveAux where
  obj : Obj
  found : ℕ
  resolved : ℕ
  err : Bool

def resolveFieldsAux (pl : Obj) : List String → Obj → ℕ → ℕ → ResolveAux
  | [], b, cf, cr => ⟨b, cf, cr, false⟩
  | f :: rest, b, cf, cr =>
    let v1 := Json.getD b f (.str "")
    let v4 := Json.getD pl f (.str "")
    if v1.truthy ∧ v4.truthy ∧ ¬ pyEq v1 v4 then
      match v1 with
      | .str s =>
        if pyStrip s = "" then
          resolveFieldsAux pl rest (Json.setKey b f v4) (cf + 1) (cr + 1)
        else
          resolveFieldsAux pl rest b (cf + 1) (cr + 1)
      | _ => ⟨b, cf + 1, cr, true⟩
    else
      resolveFieldsAux pl rest b cf cr

/-- `_resolve_basic_info_conflicts(node1_basic_info, node4_property_level)`:
walks `common_fields`, counting conflicts and (only for a truthy
whitespace-only node-1 string) writing node 4's value into node 1's dict. -/
def resolveBasicInfoConflicts (b pl : Json) : ResolveOut :=
  match b, pl with
  | .obj bo, .obj plo =>
    let r := resolveFieldsAux plo.toList commonFields bo.toList 0 0
    ⟨.jobj r.obj, r.found, r.resolved, r.err⟩
  | _, _ => ⟨b, 0, 0, true⟩

/-! ### String normalization helpers from `data_processor.py` and
`async_engine_memory.py` -/

def isLowerAlnum (c : Char) : Bool :=
  (('a' ≤ c ∧ c ≤ 'z') ∨ c.isDigit : Bool)

def isAlnumChar (c : Char) : Bool :=
  (('a' ≤ c ∧ c ≤ 'z') ∨ ('A' ≤ c ∧ c ≤ 'Z') ∨ c.isDigit : Bool)

/-- Collapse consecutive dashes into one (models `re.sub("[^a-z0-9]+", "-", s)`
after the bad characters have been mapped to dashes individually). -/
def collapseDashes : List Char → List Char
  | [] => []
  | [c] => [c]
  | c :: d :: rest =>
    if c = '-' ∧ d = '-' then collapseDashes (d :: rest)
    else c :: collapseDashes (d :: rest)

def stripChar (c : Char) (l : List Char) : List Char :=
  ((l.dropWhile (· = c)).reverse.dropWhile (· = c)).reverse

/-- `merge_node_data.norm_name`: empty for falsy input, else lowercase, strip,
replace runs of non-`[a-z0-9]` by a single `-`, strip dashes. -/
def normNameProc (v : Json) : String :=
  if ¬ v.truthy then ""
  else
    let s := pyStrip (pyLower (pyStr v))
    let mapped := s.toList.map (fun c => if isLowerAlnum c then c else '-')
    String.mk (stripChar '-' (collapseDashes mapped))

/-- `_clean_merged_data.normalize_name`: `str(name).strip().lower()` unless
`None`. -/
def normalizeName (v : Json) : String :=
  match v with
  | .null => ""
  | v => pyLower (pyStrip (pyStr v))

/-- `_merge_extraction_results` name normalization:
`re.sub(r"[^a-zA-Z0-9]", "_", s.lower().strip())`. -/
def engineNormName (s : String) : String :=
  String.mk ((pyStrip (pyLower s)).toList.map (fun c => if isAlnumChar c then c else '_'))

/-- Fan-out config key: `re.sub(r"[^a-zA-Z0-9_]", "_", cfg_name)`. -/
def engineCfgKey (s : String) : String :=
  String.mk (s.toList.map (fun c => if (isAlnumChar c ∨ c = '_' : Bool) then c else '_'))

/-! ### Tenancy attachment inside `merge_node_data` -/

/-- Python dict assignment on a string-keyed association map. -/
def updAssoc {α : Type} : List (String × α) → String → α → List (String × α)
  | [], k, v => [(k, v)]
  | (k', v') :: rest, k, v =>
    if k' = k then (k', v) :: rest else (k', v') :: updAssoc rest k v

def lookupAssoc {α : Type} (m : List (String × α)) (k : String) : Option α :=
  (m.find? (fun p => p.1 = k)).map Prod.snd

/-- `tenancy_key(t)`: composite dedup key from
`tenancy_length_weeks`/`tenancy_length` and `price_per_week`/`price`. -/
def tenancyKey (t : Obj) : String :=
  let tlw := Json.getD t "tenancy_length_weeks" .null
  let base :=
    match tlw with
    | .null =>
      let tl := Json.getD t "tenancy_length" .null
      if tl.truthy then pyStr tl else ""
    | v => pyStr v
  let p1 := Json.getD t "price_per_week" .null
  let price := if p1.truthy then p1 else
    (let p2 := Json.getD t "price" .null; if p2.truthy then p2 else .str "")
  base ++ "|" ++ pyStr price

/-- One step of the `seen`-set walk that extends a configuration's existing
`tenancy_options` with node 4's, skipping entries whose `tenancy_key` was
already seen (non-dict entries are skipped outright). -/
def tenancyDedupStep (st : List Json × List String) (t : Json) :
    List Json × List String :=
  match t with
  | .obj t' =>
    let k := tenancyKey t'.toList
    if k ∈ st.2 then st else (st.1 ++ [t], k :: st.2)
  | _ => st

/-- Name candidates of a node-3 configuration (`Basic.Name`, `name`,
`Description.Name`; the nested reads are `try`-guarded in the source, so a
non-dict `Basic`/`Description` contributes nothing). -/
def cfgNameCandidates (cfg : Obj) : List Json :=
  (match Json.getD cfg "Basic" (.jobj []) with
    | .obj b => [Json.getD b.toList "Name" .null]
    | _ => []) ++
  (if (Json.getD cfg "name" .null).truthy then [Json.getD cfg "name" .null] else []) ++
  (match Json.getD cfg "Description" (.jobj []) with
    | .obj d => [Json.getD d.toList "Name" .null]
    | _ => [])

/-- Build `cfg_by_id` and `cfg_by_name` (indices stand for the Python object
references). -/
def buildCfgMaps (cfgs : List Json) : List (String × ℕ) × List (String × ℕ) :=
  (cfgs.enum.foldl (fun maps (i, cfg) =>
    match cfg with
    | .obj c =>
      let byId :=
        let cid := Json.getD c.toList "configuration_id" .null
        if cid.truthy then updAssoc maps.1 (pyStr cid) i else maps.1
      let byName := (cfgNameCandidates c.toList).foldl (fun m nm =>
        if nm.truthy then updAssoc m (normNameProc nm) i else m) maps.2
      (byId, byName)
    | _ => maps) ([], []))

/-- Attach one node-4 configuration's tenancy options onto the matching
node-3 configuration (by `configuration_id`, else by normalized name),
deduplicating by `tenancy_key`. -/
def attachOne (byId byName : List (String × ℕ)) (cfgs : List Json) (n4 : Json) :
    List Json :=
  match n4 with
  | .obj n4o0 =>
    let n4o := n4o0.toList
    let target? : Option ℕ :=
      let n4id := Json.getD n4o "configuration_id" .null
      if n4id.truthy ∧ (lookupAssoc byId (pyStr n4id)).isSome then
        lookupAssoc byId (pyStr n4id)
      else
        let n4name := Json.getD n4o "name" .null
        let n4name := if n4name.truthy then n4name else
          match Json.getD n4o "Basic" (.jobj []) with
          | .obj b => Json.getD b.toList "Name" .null
          | _ => n4name
        let key := if n4name.truthy then normNameProc n4name else ""
        if key ≠ "" then lookupAssoc byName key else none
    match target? with
    | none => cfgs
    | some i =>
      let tenancies? : Option (List Json) :=
        match Json.getD n4o "tenancy_options" .null with
        | .arr ts => some ts.toList
        | _ =>
          match Json.getD n4o "tenancies" .null with
          | .arr ts => some ts.toList
          | _ => none
      match tenancies? with
      | none => cfgs
      | some ts =>
        match cfgs.get? i with
        | some (.obj c0) =>
          let c := c0.toList
          let existing := match Json.getD c "tenancy_options" .null with
            | .arr xs => xs.toList
            | _ => []
          let seen0 := existing.filterMap (fun t =>
            match t with | .obj t' => some (tenancyKey t'.toList) | _ => none)
          let merged := (ts.foldl tenancyDedupStep (existing, seen0)).1
          cfgs.set i (.jobj (Json.setKey c "tenancy_options" (.jarr merged)))
        | _ => cfgs
  | _ => cfgs

/-- `merge_node_data`'s attach loop over node-4 configurations. -/
def attachTenancies (cfgs : List Json) (n4configs : List Json) : List Json :=
  let maps := buildCfgMaps cfgs
  n4configs.foldl (attachOne maps.1 maps.2) cfgs

/-- The parseable `price_per_week` values among a configuration's tenancy
options (non-dict entries, missing/`None` values and unparseable floats are
skipped, per the `try/except: continue`). -/
def tenancyPrices (ts : List Json) : List ℚ :=
  ts.filterMap (fun t =>
    match t with
    | .obj t' =>
      match Json.getD t'.toList "price_per_week" .null with
      | .null => none
      | v => pyFloat v
    | _ => none)

/-- Recompute a configuration's `Pricing."Min Price"/"Max Price"` from its
`tenancy_options`' `price_per_week` values (when any parses as a float). -/
def recomputePricing (cfg : Json) : Json :=
  match cfg with
  | .obj c0 =>
    let c := c0.toList
    match Json.getD c "tenancy_options" .null with
    | .arr ts0 =>
      let ts := ts0.toList
      if ts.isEmpty then cfg
      else
        match tenancyPrices ts with
        | [] => cfg
        | p :: ps =>
          let minP := ps.foldl min p
          let maxP := ps.foldl max p
          let pr := match Json.getD c "Pricing" .null with
            | .obj po => po.toList
            | _ => []
          let pr' := Json.setKey (Json.setKey pr "Min Price" (.str (pyFloatStr minP)))
            "Max Price" (.str (pyFloatStr maxP))
          .jobj (Json.setKey c "Pricing" (.jobj pr'))
    | _ => cfg
  | _ => cfg

/-! ### Stable sorting (Python `sorted` is stable) -/

def stableInsert {α : Type} (le : α → α → Bool) (x : α) : List α → List α
  | [] => [x]
  | y :: ys => if le y x then y :: stableInsert le x ys else x :: y :: ys

/-- Stable insertion sort: each element is placed after all earlier elements
whose key is `≤` its own, preserving input order within equal keys. -/
def stableSortBy {α : Type} (le : α → α → Bool) (l : List α) : List α :=
  l.foldl (fun acc x => stableInsert le x acc) []

/-! ### Python for-loop iteration (`for x in v`) -/

/-- What Python iterates over: lists yield elements, strings characters,
dicts their keys; `none` models `TypeError`. -/
def iterElems : Json → Option (List Json)
  | .arr xs => some xs.toList
  | .str s => some (s.toList.map (fun c => .str (String.mk [c])))
  | .obj kvs => some (kvs.toList.map (fun p => .str p.1))
  | _ => none

/-- `for x in (v or [])`. -/
def iterOrEmpty (v : Json) : Option (List Json) :=
  if v.truthy then iterElems v else some []
/-! ### `PropertyDataProcessor._augment_features` -/

/-- `push(name, ftype)` over the `(combined, seen)` accumulator. -/
def pushFeat (st : List Json × List String) (name ftype : String) :
    List Json × List String :=
  let key := pyLower (pyStrip name)
  if key = "" ∨ key ∈ st.2 then st
  else
    let item : Obj := [("name", .str name)] ++
      (if ftype ≠ "" then [("type", .str ftype)] else [])
    (st.1 ++ [.jobj item], key :: st.2)

/-- `f.get("name") or f.get("Description") or f.get("feature") or ""`. -/
def featName (f : Obj) : Json :=
  let a := Json.getD f "name" .null
  if a.truthy then a else
  let b := Json.getD f "Description" .null
  if b.truthy then b else
  let c := Json.getD f "feature" .null
  if c.truthy then c else .str ""

def featTypeLower (f : Obj) : Json :=
  let a := Json.getD f "type" .null
  if a.truthy then a else
  let b := Json.getD f "Type" .null
  if b.truthy then b else .str ""

def featTypeUpper (f : Obj) : Json :=
  let a := Json.getD f "Type" .null
  if a.truthy then a else
  let b := Json.getD f "type" .null
  if b.truthy then b else .str ""

/-- One item of the node-1 `features` walk. -/
def pushNode1Feat (st : List Json × List String) (f : Json) :
    List Json × List String :=
  match f with
  | .obj fo =>
    let nm := featName fo.toList
    let tp := featTypeLower fo.toList
    if nm.truthy then pushFeat st (pyStr nm) (pyStr tp) else st
  | .str s => pushFeat st s ""
  | _ => st

/-- One item of a configuration's lowercase `features` list (no type). -/
def pushCfgFeat (st : List Json × List String) (f : Json) :
    List Json × List String :=
  match f with
  | .str s => pushFeat st s ""
  | .obj fo =>
    let nm := featName fo.toList
    if nm.truthy then pushFeat st (pyStr nm) "" else st
  | _ => st

/-- One item of a configuration's capitalized `Features` list (with type). -/
def pushCfgFeatureU (st : List Json × List String) (f : Json) :
    List Json × List String :=
  match f with
  | .str s => pushFeat st s ""
  | .obj fo =>
    let nm := featName fo.toList
    let tp := featTypeUpper fo.toList
    if nm.truthy then pushFeat st (pyStr nm) (pyStr tp) else st
  | _ => st

/-- Description `features` given as a comma-separated string:
`replace("\n", ",")`, split on commas, strip, drop empties. -/
def splitDescFeatures (s : String) : List String :=
  ((splitChars (fun c => c = ',')
      (s.toList.map (fun c => if c = '\n' then ',' else c))).map
    (fun cs => pyStrip (String.mk cs))).filter (· ≠ "")

/-- `_augment_features(merged)`; `none` models an uncaught exception inside
the helper (its caller wraps it in `try/except pass`, leaving `features`
unchanged). -/
def augmentFeatures (merged : Obj) : Option (List Json) := do
  let st0 : List Json × List String := ([], [])
  let n1items ← iterOrEmpty (Json.getD merged "features" (.jarr []))
  let st1 := n1items.foldl pushNode1Feat st0
  let desc := let d := Json.getD merged "description" (.jobj [])
    if d.truthy then d else .jobj []
  let descO ← match desc with | .obj d => some d.toList | _ => none
  let st2 := match Json.getD descO "features" .null with
    | .str s => (splitDescFeatures s).foldl (fun st p => pushFeat st p "") st1
    | .arr fs => fs.toList.foldl (fun st f =>
        match f with
        | .str s => pushFeat st s ""
        | .obj fo =>
          let nm := featName fo.toList
          if nm.truthy then pushFeat st (pyStr nm) "" else st
        | _ => st) st1
    | _ => st1
  let cfgItems ← iterOrEmpty (Json.getD merged "configurations" (.jarr []))
  let st3 := cfgItems.foldl (fun st cfg =>
    match cfg with
    | .obj c =>
      let st := match Json.getD c.toList "features" .null with
        | .arr fs => fs.toList.foldl pushCfgFeat st
        | _ => st
      match Json.getD c.toList "Features" .null with
      | .arr fs => fs.toList.foldl pushCfgFeatureU st
      | _ => st
    | _ => st) st2
  pure st3.1

/-! ### `PropertyDataProcessor._augment_location` -/

/-- `choose(a, b)`. -/
def chooseLoc (a b : Json) : Json := if pyFilled a then a else b

/-- `_augment_location(merged)`; `none` models an uncaught exception
(non-dict `location` / `tenancy_data` / `property_level`). -/
def augmentLocation (merged : Obj) : Option Json := do
  let loc := let l := Json.getD merged "location" (.jobj [])
    if l.truthy then l else .jobj []
  let locO ← match loc with | .obj l => some l.toList | _ => none
  let td := Json.getD merged "tenancy_data" (.jobj [])
  let tdO ← match td with | .obj t => some t.toList | _ => none
  let pl := let p := Json.getD tdO "property_level" (.jobj [])
    if p.truthy then p else .jobj []
  let plO ← match pl with | .obj p => some p.toList | _ => none
  let lget := fun k => Json.getD locO k .null
  let pget := fun k => Json.getD plO k .null
  let porElse := fun k1 k2 => let v := pget k1; if v.truthy then v else pget k2
  pure (.jobj [
    ("location_name", chooseLoc (lget "location_name") (porElse "location_name" "name")),
    ("address", chooseLoc (lget "address") (pget "address")),
    ("city", chooseLoc (lget "city") (porElse "city" "region")),
    ("region", chooseLoc (lget "region") (pget "region")),
    ("country", chooseLoc (lget "country") (pget "country")),
    ("latitude", chooseLoc (lget "latitude") (pget "latitude")),
    ("longitude", chooseLoc (lget "longitude") (pget "longitude"))])

/-! ### `PropertyDataProcessor._clean_merged_data` (normalize + sort + clean) -/

def sortByKeys {κ : Type} (le : κ → κ → Bool) (keys : List κ) (l : List Json) :
    List Json :=
  (stableSortBy (fun a b => le a.1 b.1) (keys.zip l)).map Prod.snd

def lexQS (a b : ℚ × String) : Bool :=
  (decide (a.1 < b.1) || (decide (a.1 = b.1) && strLe a.2 b.2))

def lexSS (a b : String × String) : Bool :=
  (strLt a.1 b.1 || (a.1 = b.1 && strLe a.2 b.2))

/-- First component of a tenancy's sort key: `t.get("duration_months") or 0`. -/
def tenSortKey1 (o : Obj) : Json :=
  let v := Json.getD o "duration_months" .null
  if v.truthy then v else .int 0

/-- Second component: `str(t.get("duration") or "")`. -/
def tenSortKey2 (o : Obj) : String :=
  let v := Json.getD o "duration" .null
  if v.truthy then pyStr v else ""

/-- `sorted(tens, key=...)`; `none` models the `TypeError` the source catches
with `except: pass` (non-dict entries, or mutually incomparable first keys). -/
def sortTenancies (tens : List Json) : Option (List Json) := do
  let objs ← tens.mapM (fun t => match t with | .obj o => some o.toList | _ => none)
  let k1 := objs.map tenSortKey1
  let k2 := objs.map tenSortKey2
  match k1.mapM numView with
  | some qs => some (sortByKeys lexQS (qs.zip k2) tens)
  | none =>
    match k1.mapM (fun v => match v with | .str s => some s | _ => none) with
    | some ss => some (sortByKeys lexSS (ss.zip k2) tens)
    | none => none

/-- Per-configuration normalization inside `_clean_merged_data`: set
`cfg["name"]` from `name` / `Basic."Configuration Name"` and sort its
`tenancies`; `.error` models the uncaught `AttributeError` when `Basic` is a
truthy non-dict (which makes `_clean_merged_data` return the data uncleaned). -/
def cleanCfgStep : Json → Except Unit Json
  | .obj c0 =>
    let c := c0.toList
    let nval := Json.getD c "name" .null
    let n? : Except Unit Json :=
      if nval.truthy then .ok nval
      else
        match Json.getD c "Basic" (.jobj []) with
        | .obj b => .ok (Json.getD b.toList "Configuration Name" .null)
        | _ => .error ()
    match n? with
    | .error _ => .error ()
    | .ok n =>
      let c1 := if n.truthy then Json.setKey c "name" (.str (pyStrip (pyStr n))) else c
      let c2 :=
        match Json.getD c1 "tenancies" .null with
        | .arr tens =>
          match sortTenancies tens.toList with
          | some ts => Json.setKey c1 "tenancies" (.jarr ts)
          | none => c1
        | _ => c1
      .ok (.jobj c2)
  | v => .ok v

/-- Walk the configurations; on an exception the already-processed prefix
keeps its mutations and the rest is untouched. -/
def cleanCfgsLoop : List Json → List Json × Bool
  | [] => ([], false)
  | cfg :: rest =>
    match cleanCfgStep cfg with
    | .error _ => (cfg :: rest, true)
    | .ok cfg' =>
      let r := cleanCfgsLoop rest
      (cfg' :: r.1, r.2)

/-- `sorted(cfgs, key=lambda c: normalize_name(c.get("name")))`, `try`-guarded
(a non-dict entry raises, leaving the list unsorted). -/
def sortConfigs (cfgs : List Json) : List Json :=
  match cfgs.mapM (fun c =>
      match c with
      | .obj o => some (normalizeName (Json.getD o.toList "name" .null))
      | _ => none) with
  | some keys => sortByKeys strLe keys cfgs
  | none => cfgs

/-- `_clean_merged_data(data)`: returns the cleaned (or, after an exception,
raw) merged record together with the configurations list as mutated in place
(shared with node 3's data). -/
def cleanMergedData (data : Obj) : Json × List Json :=
  match Json.getD data "configurations" .null with
  | .arr cfgs0 =>
    let r := cleanCfgsLoop cfgs0.toList
    if r.2 then
      (.jobj (Json.setKey data "configurations" (.jarr r.1)), r.1)
    else
      let data1 := Json.setKey data "configurations" (.jarr (sortConfigs r.1))
      ((cleanJson (.jobj data1)).getD (.jobj []), r.1)
  | _ => ((cleanJson (.jobj data)).getD (.jobj []), [])

/-! ### `_calculate_merge_quality_score` and `merge_node_data` -/

/-- Weighted average of completeness (0.4), node coverage (0.3) and the
constant consistency term 0.9 (0.3). -/
def mergeQualityScore (merged : Json) (nd : Obj) : ℚ :=
  let comp := completeness merged
  let contributing := (nd.filter (fun p => p.2.truthy)).length
  let coverage := (contributing : ℚ) / 4
  comp * (4 / 10) + coverage * (3 / 10) + (9 / 10) * (3 / 10)

/-- Result of `PropertyDataProcessor.merge_node_data`. -/
structure MergeResult where
  success : Bool
  merged_data : Option Json
  conflicts_found : ℕ
  conflicts_resolved : ℕ
  errors : List String
  quality_score : ℚ

/-- `v or []` (falsy values replaced by a fresh empty list). -/
def orEmptyList (v : Json) : Json := if v.truthy then v else .jarr []

/-- The tail of `merge_node_data`: build the merged dict in its canonical key
order, augment features and location (`try`-guarded), then
`_clean_merged_data`. Returns the cleaned record and the mutated
configurations list. -/
def assembleMerged (basicInfo location features rules safety description
    cfgs tenancy : Json) : Json × List Json :=
  let merged0 : Obj := [
    ("basic_info", basicInfo), ("location", location), ("features", features),
    ("property_rules", rules), ("safety_and_security", safety),
    ("description", description), ("configurations", cfgs),
    ("tenancy_data", tenancy)]
  let merged1 := match augmentFeatures merged0 with
    | some fs => Json.setKey merged0 "features" (.jarr fs)
    | none => merged0
  let merged2 := match augmentLocation merged1 with
    | some loc => Json.setKey merged1 "location" loc
    | none => merged1
  cleanMergedData merged2

/-- The node-data slots `merge_node_data` reads (node 4 is kept whole: its
`property_level` feeds the conflict resolution and its `configurations` the
tenancy attachment, and the dict itself becomes `tenancy_data`). -/
structure MergeInputs where
  basicInfo : Json
  location : Json
  features : Json
  rules : Json
  safety : Json
  description : Json
  configurations : Json
  n4 : Option Obj

def nodeObjOf (nd : Obj) (k : String) : Option Obj :=
  match Json.getKey nd k with
  | some (.obj o) => some o.toList
  | _ => none

/-- Read the initial merged slots out of `node_data` (steps 1-4 of the
merge). -/
def readInputs (nd : Obj) : MergeInputs :=
  let n1? := nodeObjOf nd "node1_basic_info"
  let n2? := nodeObjOf nd "node2_description"
  let n3? := nodeObjOf nd "node3_configuration"
  { basicInfo := match n1? with
      | some o => Json.getD o "basic_info" (.jobj [])
      | none => .jobj []
    location := match n1? with
      | some o => Json.getD o "location" (.jobj [])
      | none => .jobj []
    features := match n1? with
      | some o => orEmptyList (Json.getD o "features" (.jarr []))
      | none => .jarr []
    rules := match n1? with
      | some o => orEmptyList (Json.getD o "property_rules" (.jarr []))
      | none => .jarr []
    safety := match n1? with
      | some o => orEmptyList (Json.getD o "safety_and_security" (.jarr []))
      | none => .jarr []
    description := match n2? with
      | some o =>
        let d := Json.getD o "description" (.jobj [])
        if d.truthy then d else .jobj []
      | none => .jobj []
    configurations := match n3? with
      | some o => orEmptyList (Json.getD o "configurations" (.jarr []))
      | none => .jarr []
    n4 := nodeObjOf nd "node4_tenancy" }

/-- Mutation of node 1's `basic_info` (aliased into the merged dict and
written by the conflict resolution). -/
def writebackBasic (nd : Obj) (b1 : Json) : Obj :=
  match Json.getKey nd "node1_basic_info" with
  | some (.obj o) =>
    if Json.hasKey o.toList "basic_info" then
      Json.setKey nd "node1_basic_info" (.jobj (Json.setKey o.toList "basic_info" b1))
    else nd
  | _ => nd

/-- Mutation of node 3's configuration dicts (aliased into the merged dict;
the aliasing only holds when node 3 supplied a truthy list). -/
def writebackCfgs (nd : Obj) (cfgs : List Json) : Obj :=
  match Json.getKey nd "node3_configuration" with
  | some (.obj o) =>
    match Json.getD o.toList "configurations" .null with
    | .arr l =>
      if l.toList.isEmpty then nd
      else Json.setKey nd "node3_configuration"
        (.jobj (Json.setKey o.toList "configurations" (.jarr cfgs)))
    | _ => nd
  | _ => nd

/-- `merge_node_data(node_data)`, with the in-place mutation of the inputs
made explicit: returns the `MergeResult` together with the node data as it
stands after the call (node 1's `basic_info` conflict-resolved, node 3's
configuration dicts updated by tenancy attachment, pricing recomputation and
clean-time name normalization / tenancy sorting). -/
def mergeNodeData (nd : Obj) : MergeResult × Obj :=
  let inp := readInputs nd
  let res : Option ResolveOut := match inp.n4 with
    | some o =>
      if Json.hasKey o "property_level" then
        some (resolveBasicInfoConflicts inp.basicInfo (Json.getD o "property_level" .null))
      else none
    | none => none
  let basicInfo1 := match res with | some r => r.basicInfo | none => inp.basicInfo
  let ndB := writebackBasic nd basicInfo1
  if (match res with | some r => r.err | none => false) then
    (⟨false, none, 0, 0, ["Data merge failed"], 0⟩, ndB)
  else
    let cf := match res with | some r => r.found | none => 0
    let cr := match res with | some r => r.resolved | none => 0
    let tenancy0 := match inp.n4 with
      | some o => Json.jobj o
      | none => .jobj []
    let n4cfgs : Option (List Json) := match inp.n4 with
      | some o =>
        match Json.getD o "configurations" (.jarr []) with
        | .arr l => some l.toList
        | _ => none
      | none => none
    let cfgs1 : Json :=
      match n4cfgs, inp.configurations with
      | some n4l, .arr cl => .jarr ((attachTenancies cl.toList n4l).map recomputePricing)
      | _, _ => inp.configurations
    let cleanOut := assembleMerged basicInfo1 inp.location inp.features inp.rules
      inp.safety inp.description cfgs1 tenancy0
    let nd3 := writebackCfgs ndB cleanOut.2
    (⟨true, some cleanOut.1, cf, cr, [], mergeQualityScore cleanOut.1 nd3⟩, nd3)
/-! ### `AsyncOrchestrationEngine._merge_extraction_results`
(`async_engine_memory.py`) -/

def Json.isNull : Json → Bool
  | .null => true
  | _ => false

def nodeIdToKey (nodeId : String) : String :=
  if nodeId = "node_1" then "node1_basic_info"
  else if nodeId = "node_2" then "node2_description"
  else if nodeId = "node_3" then "node3_configuration"
  else if nodeId = "node_4" then "node4_tenancy"
  else nodeId

/-- Collect `successful_data` from the per-node results. -/
def successfulData (results : Obj) : Obj :=
  results.foldl (fun acc p =>
    if (p.2.objGetD "success" .null).truthy ∧ (p.2.objGetD "data" .null).truthy then
      updAssoc acc (nodeIdToKey p.1) (p.2.objGetD "data" .null)
    else acc) []

/-- Walk a dotted name field (`"Basic.Name"` etc.) through nested dicts;
`none` when some segment is missing or the parent is not a dict. -/
def walkField : Json → List String → Option Json
  | v, [] => some v
  | .obj kvs, p :: rest =>
    match Json.getKey kvs.toList p with
    | some v => walkField v rest
    | none => none
  | _, _ :: _ => none

/-- The first of `name`, `Basic.Name`, `room_type`, `Description.Name` that
resolves to a truthy value. -/
def cfgNameFieldValue (c : Obj) : Option Json :=
  [["name"], ["Basic", "Name"], ["room_type"], ["Description", "Name"]].foldl
    (fun acc path =>
      match acc with
      | some _ => acc
      | none =>
        match walkField (.jobj c) path with
        | some v => if v.truthy then some v else none
        | none => none) none

/-- First pass of the enhanced tenancy merge: `config_map` from normalized
configuration names to configuration indices. `.error` models the uncaught
`AttributeError` when `cfg.get("name")` is a truthy non-string. -/
def buildConfigMap (cfgs : List Json) : Except Unit (List (String × ℕ)) :=
  cfgs.enum.foldlM (fun m (i, cfg) =>
    match cfg with
    | .obj c0 =>
      let c := c0.toList
      match cfgNameFieldValue c with
      | none => pure m
      | some v =>
        let norm := engineNormName (pyStr v)
        let m1 := updAssoc m norm i
        let nameV := Json.getD c "name" .null
        if nameV.truthy then
          match nameV with
          | .str s =>
            if norm ≠ pyStrip (pyLower s) then pure (updAssoc m1 (pyStrip (pyLower s)) i)
            else pure m1
          | _ => .error ()
        else pure m1
    | _ => pure m) []

/-- `tenancy.get("tenancy_length") or tenancy.get("duration")`. -/
def tenancyDuration (t : Obj) : Json :=
  let a := Json.getD t "tenancy_length" .null
  if a.truthy then a else Json.getD t "duration" .null

/-- `str(duration).lower().strip()`, the dedup key. -/
def durationKey (t : Obj) : String := pyStrip (pyLower (pyStr (tenancyDuration t)))

/-- Deduplicate an extended `tenancies` list by normalized duration
(entries with no duration are kept unconditionally; non-dict entries are
dropped). -/
def dedupTenanciesByDuration (tens : List Json) : List Json :=
  (tens.foldl (fun (st : List Json × List String) t =>
    match t with
    | .obj t' =>
      if ¬ (tenancyDuration t'.toList).truthy then (st.1 ++ [t], st.2)
      else
        let key := durationKey t'.toList
        if key ∈ st.2 then st else (st.1 ++ [t], key :: st.2)
    | _ => st) ([], [])).1

/-- The tenancy list offered by one fanned-out node-4 result's data
(`data["tenancies"]`, else the first configuration's `tenancy_options`). -/
def fanOutTenancies (dataO : Obj) : Option (List Json) :=
  match Json.getD dataO "tenancies" .null with
  | .arr ts => some ts.toList
  | _ =>
    match Json.getD dataO "configurations" .null with
    | .arr cfgs0 =>
      let cfgs := cfgs0.toList
      if cfgs.isEmpty then none
      else cfgs.foldl (fun acc cfg =>
        match acc with
        | some _ => acc
        | none =>
          match cfg with
          | .obj c =>
            match Json.getD c.toList "tenancy_options" .null with
            | .arr ts => some ts.toList
            | _ => none
          | _ => none) none
    | _ => none

/-- Second pass of the enhanced tenancy merge: attach one fanned-out node-4
result to its matching configuration. `.error` models the uncaught
exceptions (`data`/`node4_result` truthy non-dict, non-string names). -/
def enhanceOne (cmap : List (String × ℕ)) (cfgs : List Json)
    (entry : String × Json) : Except Unit (List Json) := do
  let (cfgKey, node4Result) := entry
  if ¬ node4Result.truthy then pure cfgs
  else do
    let resO ← match node4Result with | .obj o => pure o.toList | _ => Except.error ()
    if ¬ (Json.getD resO "success" .null).truthy then pure cfgs
    else do
      let dataV := let d := Json.getD resO "data" .null
        if d.truthy then d else .jobj []
      let target? ← do
        let normKey := engineNormName cfgKey
        match lookupAssoc cmap normKey with
        | some i => pure (some i)
        | none => do
          let dataO ← match dataV with | .obj o => pure o.toList | _ => Except.error ()
          let cfgName :=
            let a := Json.getD dataO "configuration_name" .null
            if a.truthy then a else Json.getD dataO "name" .null
          if cfgName.truthy then do
            let s ← match cfgName with | .str s => pure s | _ => Except.error ()
            pure (lookupAssoc cmap (engineNormName s))
          else pure none
      match target? with
      | none => pure cfgs
      | some i => do
        let dataO ← match dataV with | .obj o => pure o.toList | _ => Except.error ()
        match fanOutTenancies dataO with
        | none => pure cfgs
        | some ts =>
          if ts.isEmpty then pure cfgs
          else
            match cfgs.get? i with
            | some (.obj c0) =>
              let c := c0.toList
              let existing := match Json.getD c "tenancies" .null with
                | .arr xs => xs.toList
                | _ => []
              let extended := existing ++ ts
              let deduped :=
                if extended.isEmpty then extended else dedupTenanciesByDuration extended
              pure (cfgs.set i (.jobj (Json.setKey c "tenancies" (.jarr deduped))))
            | _ => pure cfgs

/-- The enhanced tenancy merge over the configurations of the merged record;
on an exception the mutations made so far are kept (the source logs and
falls through to `return merged_data`). -/
def enhanceTenancies (node4Map : Obj) (cfgs : List Json) : List Json :=
  match buildConfigMap cfgs with
  | .error _ => cfgs
  | .ok cmap =>
    (node4Map.foldl (fun (st : List Json × Bool) entry =>
      if st.2 then st
      else
        match enhanceOne cmap st.1 entry with
        | .ok cfgs' => (cfgs', false)
        | .error _ => (st.1, true)) (cfgs, false)).1

/-- `_merge_extraction_results(results)`. -/
def engineMergeExtractionResults (results : Obj) : Json :=
  let sd := successfulData results
  let mr := (mergeNodeData sd).1
  let merged := if mr.success then mr.merged_data.getD (.jobj []) else .jobj []
  let node4MapV := let v := Json.getD results "node_4_results" .null
    if v.truthy then v else .jobj []
  match node4MapV, merged with
  | .obj m, .obj mo =>
    if (Json.obj mo).truthy then
      match Json.getD mo.toList "configurations" .null with
      | .arr cfgs =>
        .jobj (Json.setKey mo.toList "configurations"
          (.jarr (enhanceTenancies m.toList cfgs.toList)))
      | _ => merged
    else merged
  | _, _ => merged

/-! ### `AsyncOrchestrationEngine._calculate_quality_score` and
`execute_extraction` / `JobQueueMemory._process_job` outcome handling -/

/-- `_calculate_quality_score(results, merged_data)`: mean confidence of
successful nodes (0.0 if none) blended 70/30 with merged completeness,
clamped to [0,1]; a non-numeric confidence raises and yields the
`except` default 0.0. -/
def qualityCollected (results : Obj) : List Json :=
  results.filterMap (fun p =>
    let s := p.2.objGetD "success" .null
    let c := p.2.objGetD "confidence_score" .null
    if s.truthy ∧ ¬ c.isNull then some c else none)

def calcQualityScore (results : Obj) (merged : Json) : ℚ :=
  match (qualityCollected results).mapM numView with
  | none => 0
  | some [] => 0
  | some qs =>
    let avg := qs.sum / (qs.length : ℚ)
    let q := avg * (7 / 10) + completeness merged * (3 / 10)
    min (max q 0) 1

/-- Whether the node-4 fan-out runs at all
(`if 'node_3' in results and results['node_3'].get('success')`). -/
def fanOutRuns (results : Obj) : Bool :=
  Json.hasKey results "node_3" ∧
    ((Json.getD results "node_3" .null).objGetD "success" .null).truthy

/-- The dictionary returned by `execute_extraction` on its normal path
(`success=True`, merged data and quality score); node-level failures are
caught inside `_execute_node` and do not raise here. -/
structure EngineOutcome where
  success : Bool
  merged_data : Json
  quality_score : ℚ
  error : Option String

/-- `execute_extraction`'s result as a function of the post-fan-out node
results (competitor analysis does not feed the returned
success/merged/quality fields). -/
def executeExtractionOutcome (results : Obj) : EngineOutcome :=
  let merged := engineMergeExtractionResults results
  ⟨true, merged, calcQualityScore results merged, none⟩

inductive JobStatus where
  | pending | running | completed | failed | cancelled
  deriving DecidableEq

/-- The job fields `_process_job` leaves behind. -/
structure JobFinal where
  status : JobStatus
  merged_data : Option Json
  quality_score : Option ℚ
  progress_percentage : ℚ
  current_phase : String
  error_message : Option String

/-- `JobQueueMemory._process_job`'s terminal handling of the engine result:
on `success` the job is completed (progress 100); otherwise it is marked
failed with its progress untouched. -/
def processJobOutcome (out : EngineOutcome) (prevProgress : ℚ) : JobFinal :=
  if out.success then
    ⟨.completed, some out.merged_data, some out.quality_score, 100, "completed", none⟩
  else
    ⟨.failed, none, none, prevProgress, "extracting_data",
      some (out.error.getD "Unknown error occurred")⟩

/-! ### `MemoryStore.enqueue_job` / `dequeue_job` (priority queue) -/

inductive JobPriority where
  | low | normal | high | urgent
  deriving DecidableEq

/-- The `priority_order` map inside `enqueue_job` (smaller = served first). -/
def priorityOrder : JobPriority → ℕ
  | .urgent => 0
  | .high => 1
  | .normal => 2
  | .low => 3

/-- Insert before the first queue position whose (existing) job has a
strictly lower priority; positions whose job id is unknown never match,
mirroring `if queued_job:` in the insertion-index scan. -/
def insertQueue (jobs : List (String × JobPriority)) (p : ℕ) (jid : String) :
    List String → List String
  | [] => [jid]
  | q :: rest =>
    match lookupAssoc jobs q with
    | some qp =>
      if p < priorityOrder qp then jid :: q :: rest
      else q :: insertQueue jobs p jid rest
    | none => q :: insertQueue jobs p jid rest

/-- `MemoryStore.enqueue_job`: no-op when already queued or unknown, else
insert before the first strictly-lower-priority job. -/
def enqueueJob (jobs : List (String × JobPriority)) (queue : List String)
    (jid : String) : List String :=
  if queue.contains jid then queue
  else
    match lookupAssoc jobs jid with
    | none => queue
    | some p => insertQueue jobs (priorityOrder p) jid queue

/-- `MemoryStore.dequeue_job`: pop the queue head. -/
def dequeueJob (queue : List String) : Option String × List String :=
  match queue with
  | [] => (none, [])
  | q :: rest => (some q, rest)

/-- `QueuedJob.__lt__` from `job_queue.py`: priority value descending, then
scheduled/created time ascending (times as rationals). -/
structure QueuedJob where
  job_id : ℕ
  priorityValue : ℕ
  scheduled : ℚ

def queuedJobLt (a b : QueuedJob) : Bool :=
  if a.priorityValue ≠ b.priorityValue then decide (a.priorityValue > b.priorityValue)
  else decide (a.scheduled < b.scheduled)

/-! ### Per-node retry loops -/

inductive NodeStatus where
  | pending | running | completed | failed
  deriving DecidableEq

/-- The fields of a `NodeExecution` touched by `async_engine.py`'s
`_execute_single_node` / its update helpers. -/
structure NodeRec where
  status : NodeStatus
  error_message : Option String
  retry_count : ℕ
  deriving DecidableEq

/-- `ExtractionResult` (success flag and error of one extraction call). -/
structure ExtractionResult where
  success : Bool
  error : Option String
  deriving DecidableEq

/-- `_update_node_execution_async`: store the result's status/error. -/
def updateNodeFromResult (node : NodeRec) (r : ExtractionResult) : NodeRec :=
  if r.success then { node with status := .completed }
  else { node with status := .failed, error_message := r.error }

structure SingleNodeOut where
  node : NodeRec
  calls : ℕ
  sleeps : List ℚ
  result : ExtractionResult

/-- The body of `_execute_single_node`'s `for attempt in range(max_retries+1)`
loop; `ext attempt` is the extraction call (`.error` = raised exception). -/
def execSingleNodeGo (maxR : ℕ) (delay : ℚ) (ext : ℕ → Except String ExtractionResult) :
    ℕ → ℕ → NodeRec → List ℚ → ℕ → SingleNodeOut
  | 0, _, node, sleeps, calls =>
    ⟨node, calls, sleeps, ⟨false, some "Max retries exceeded"⟩⟩
  | fuel + 1, attempt, node, sleeps, calls =>
    let sleeps := if attempt > 0 then sleeps ++ [delay * (attempt : ℚ)] else sleeps
    match ext attempt with
    | .ok r =>
      let node := updateNodeFromResult node r
      if r.success then ⟨node, calls + 1, sleeps, r⟩
      else if attempt = maxR then ⟨{ node with status := .failed }, calls + 1, sleeps, r⟩
      else execSingleNodeGo maxR delay ext fuel (attempt + 1) node sleeps (calls + 1)
    | .error e =>
      if attempt = maxR then
        ⟨{ node with status := .failed }, calls + 1, sleeps, ⟨false, some e⟩⟩
      else execSingleNodeGo maxR delay ext fuel (attempt + 1) node sleeps (calls + 1)

/-- `async_engine.AsyncOrchestrationEngine._execute_single_node`. -/
def execSingleNode (maxR : ℕ) (delay : ℚ) (ext : ℕ → Except String ExtractionResult)
    (node0 : NodeRec) : SingleNodeOut :=
  execSingleNodeGo maxR delay ext (maxR + 1) 0 { node0 with status := .running } [] 0

/-- `async_engine_memory.AsyncOrchestrationEngine._categorize_error`. -/
def categorizeError (message : String) : String :=
  let msg := pyLower message
  if strContains msg "timeout" ∨ strContains msg "timed out" then "timeout"
  else if strContains msg "rate limit" ∨ strContains msg "429" then "rate_limit"
  else if strContains msg "json" ∧
    (strContains msg "parse" ∨ strContains msg "unterminated" ∨ strContains msg "invalid")
    then "json_parse"
  else if strContains msg "connection" ∨ strContains msg "network" then "network"
  else "unknown"

/-- The error categories the in-memory engine retries. -/
def retryableCategories : List String :=
  ["json_parse", "timeout", "network", "rate_limit", "connection"]

/-- NodeExecution fields touched by the in-memory engine's retry loop. -/
structure MemNodeRec where
  status : NodeStatus
  retry_count : ℕ
  error_category : Option String
  error_message : Option String
  deriving DecidableEq

structure MemNodeOut where
  node : MemNodeRec
  calls : ℕ
  sleeps : List ℚ
  ok : Bool

/-- The `while attempt <= max_retries` loop of
`async_engine_memory._execute_node`, with exponential backoff
`min(5 * 2**attempt, 30)`; a non-retryable or final failure re-raises, which
the surrounding `except` turns into a failed node. -/
def execMemNodeGo (maxR : ℕ) (ext : ℕ → Except String Json) :
    ℕ → ℕ → MemNodeRec → List ℚ → ℕ → MemNodeOut
  | 0, _, node, sleeps, calls => ⟨node, calls, sleeps, false⟩
  | fuel + 1, attempt, node, sleeps, calls =>
    match ext attempt with
    | .ok _ => ⟨{ node with status := .completed }, calls + 1, sleeps, true⟩
    | .error e =>
      let cat := categorizeError e
      let node := { node with
        retry_count := attempt
        error_category := some cat
        error_message := some e }
      if attempt < maxR ∧ cat ∈ retryableCategories then
        let d : ℚ := min (5 * 2 ^ attempt) 30
        execMemNodeGo maxR ext fuel (attempt + 1) node (sleeps ++ [d]) (calls + 1)
      else ⟨{ node with status := .failed }, calls + 1, sleeps, false⟩

/-- `async_engine_memory._execute_node`'s retry loop (the node was already
set `running` before it). -/
def execMemNode (maxR : ℕ) (ext : ℕ → Except String Json) (node0 : MemNodeRec) :
    MemNodeOut :=
  execMemNodeGo maxR ext (maxR + 1) 0 { node0 with status := .running } [] 0

/-! ### Progress (`JobQueueMemory._progress_callback` /
`_compute_overall_progress`) -/

/-- `round(x, 1)` (modelled as arithmetic rounding on rationals; Python's
float banker's rounding agrees on the values this pipeline produces). -/
def round1 (q : ℚ) : ℚ := (round (q * 10) : ℤ) / 10

/-- `_compute_overall_progress`: 10% base, 80% weighted by completed nodes,
20% by running nodes, with phase floors for merge / competitor / finalize
(failed nodes are counted by the source but do not enter the formula). -/
def computeOverallProgress (nodes : List NodeStatus) (phase : String) : ℚ :=
  let total := nodes.length
  if total = 0 then (if phase ≠ "" then 10 else 0)
  else
    let completed := nodes.countP (fun s => s = NodeStatus.completed)
    let running := nodes.countP (fun s => s = NodeStatus.running)
    let nodeComponent := ((completed : ℚ) / total) * 80 + ((running : ℚ) / total) * 20
    let progress := 10 + nodeComponent
    let progress :=
      if phase = "merging_data" then max progress 80
      else if phase = "competitor_analysis" then max progress 90
      else if phase = "finalizing" then max progress 95
      else progress
    min 100 (round1 progress)

/-- One `_progress_callback` invocation: the job's stored progress becomes
`max(old, computed)` and that value is recorded on the emitted event. -/
def progressStep (p : ℚ) (nodes : List NodeStatus) (phase : String) : ℚ :=
  max p (computeOverallProgress nodes phase)

/-- The progress percentages recorded by a sequence of callback invocations
(each observing some node states and phase). -/
def progressRecords (p0 : ℚ) : List (List NodeStatus × String) → List ℚ
  | [] => []
  | (ns, ph) :: rest =>
    let p := progressStep p0 ns ph
    p :: progressRecords p rest

/-! ### Probes and concrete scenario inputs used by the claim theorems -/

/-- Look a key up inside an optional object. -/
def probeKey (m : Option Json) (k : String) : Option Json :=
  m.bind (fun j => match j with | .obj o => Json.getKey o.toList k | _ => none)

/-- Index into an optional array. -/
def probeIdx (m : Option Json) (i : ℕ) : Option Json :=
  m.bind (fun j => match j with | .arr l => l.toList.get? i | _ => none)

/-- C1 counterexample input: one configuration named `"X"` directly and a
second one named only through `Basic."Configuration Name"`, plus a node-4
tenancy block for `"X"`. -/
def scenC1 : Obj := [
  ("node3_configuration", .jobj [("configurations", .jarr [
    .jobj [("name", .str "X")],
    .jobj [("Basic", .jobj [("Configuration Name", .str "X")])]])]),
  ("node4_tenancy", .jobj [("configurations", .jarr [
    .jobj [("name", .str "X"), ("tenancy_options", .jarr [
      .jobj [("tenancy_length", .str "44"), ("price_per_week", .int 100)]])]])])]

/-- C2 scenario: all four node extractions failed. -/
def scenC2 : Obj := [
  ("node_1", .jobj [("success", .bool false), ("error", .str "timeout")]),
  ("node_2", .jobj [("success", .bool false), ("error", .str "timeout")]),
  ("node_3", .jobj [("success", .bool false), ("error", .str "timeout")]),
  ("node_4", .jobj [("success", .bool false), ("error", .str "timeout")])]

/-- C3 scenario: `basic_info.name = "A"`, tenancy `property_level.name = "B"`. -/
def scenC3 : Obj := [
  ("node1_basic_info", .jobj [("basic_info", .jobj [("name", .str "A")])]),
  ("node4_tenancy", .jobj [("property_level", .jobj [("name", .str "B")])])]

/-- C3 counterexample input: a non-empty but whitespace-only node-1 name. -/
def scenC3w : Obj := [
  ("node1_basic_info", .jobj [("basic_info", .jobj [("name", .str " ")])]),
  ("node4_tenancy", .jobj [("property_level", .jobj [("name", .str "B")])])]

/-- C4 failing input: empty node-1 name, non-empty tenancy name. -/
def scenC4 : Obj := [
  ("node1_basic_info", .jobj [("basic_info", .jobj [("name", .str "")])]),
  ("node4_tenancy", .jobj [("property_level", .jobj [("name", .str "B")])])]

/-- C6 scenario (spec §8): `room_configs` returns `"Studio A"`, the tenancy
fan-out returns one option `{duration: "44 weeks", price: 150}` for it. -/
def scenC6 : Obj := [
  ("node_1", .jobj [("success", .bool false), ("error", .str "x")]),
  ("node_3", .jobj [("success", .bool true),
    ("data", .jobj [("configurations", .jarr [.jobj [("name", .str "Studio A")]])])]),
  ("node_4_results", .jobj [("Studio_A", .jobj [("success", .bool true),
    ("data", .jobj [("tenancies", .jarr [
      .jobj [("duration", .str "44 weeks"), ("price", .int 150)]])])])])]

/-- C6 nearby-true input: the same configuration and option shape routed
through node 4's `configurations` with `price_per_week`. -/
def scenC6m : Obj := [
  ("node3_configuration", .jobj [("configurations", .jarr [
    .jobj [("name", .str "Studio A")]])]),
  ("node4_tenancy", .jobj [("configurations", .jarr [
    .jobj [("name", .str "Studio A"), ("tenancy_options", .jarr [
      .jobj [("tenancy_length", .str "44 weeks"), ("price_per_week", .int 150)]])]])])]

/-- C7 scenario: three jobs enqueued with priorities low, urgent, normal. -/
def jobsC7 : List (String × JobPriority) :=
  [("j1", .low), ("j2", .urgent), ("j3", .normal)]

def queueC7 : List String :=
  enqueueJob jobsC7 (enqueueJob jobsC7 (enqueueJob jobsC7 [] "j1") "j2") "j3"

/-- Priority-order value of a queued job id (`priority_order.get(-, 2)`). -/
def prioOf (jobs : List (String × JobPriority)) (q : String) : ℕ :=
  match lookupAssoc jobs q with
  | some p => priorityOrder p
  | none => 2

/-- C8: an extraction that fails (returns an unsuccessful result) on every
attempt. -/
def alwaysFailExt : ℕ → Except String ExtractionResult :=
  fun _ => .ok ⟨false, some "network error"⟩

/-- C8: an extraction that raises a retryable (`timeout`) error on every
attempt. -/
def alwaysRaiseExt : ℕ → Except String Json :=
  fun _ => .error "Request timed out"

/-- C10 scenario: a basic-info extraction carrying a `False` flag and a `0`
amount next to a real name. -/
def scenC10 : Obj := [
  ("node1_basic_info", .jobj [("basic_info", .jobj [
    ("name", .str "Y"), ("pets_allowed", .bool false), ("deposit", .int 0)])])]

/-! ### Named views of `merge_node_data`'s intermediate values (used by the
idempotence analysis of the merge) -/

/-- The conflict-resolution step as a function of the read inputs. -/
def resolveOfInputs (inp : MergeInputs) : Option ResolveOut :=
  match inp.n4 with
  | some o =>
    if Json.hasKey o "property_level" then
      some (resolveBasicInfoConflicts inp.basicInfo (Json.getD o "property_level" .null))
    else none
  | none => none

def mergeRes (nd : Obj) : Option ResolveOut := resolveOfInputs (readInputs nd)

/-- The post-resolution `basic_info` value. -/
def mergeB1 (nd : Obj) : Json :=
  match mergeRes nd with
  | some r => r.basicInfo
  | none => (readInputs nd).basicInfo

/-- Whether the merge aborts with the caught exception. -/
def mergeErr (nd : Obj) : Bool :=
  match mergeRes nd with
  | some r => r.err
  | none => false

def mergeCF (nd : Obj) : ℕ :=
  match mergeRes nd with
  | some r => r.found
  | none => 0

def mergeCR (nd : Obj) : ℕ :=
  match mergeRes nd with
  | some r => r.resolved
  | none => 0

def mergeN4Cfgs (nd : Obj) : Option (List Json) :=
  match (readInputs nd).n4 with
  | some o =>
    match Json.getD o "configurations" (.jarr []) with
    | .arr l => some l.toList
    | _ => none
  | none => none

/-- The configurations after tenancy attachment and pricing recomputation. -/
def mergeCfgs1 (nd : Obj) : Json :=
  match mergeN4Cfgs nd, (readInputs nd).configurations with
  | some n4l, .arr cl => .jarr ((attachTenancies cl.toList n4l).map recomputePricing)
  | _, _ => (readInputs nd).configurations

def mergeTenancy0 (nd : Obj) : Json :=
  match (readInputs nd).n4 with
  | some o => Json.jobj o
  | none => .jobj []

/-- The cleaned merged record and mutated configurations list. -/
def mergeCleanOut (nd : Obj) : Json × List Json :=
  assembleMerged (mergeB1 nd) (readInputs nd).location (readInputs nd).features
    (readInputs nd).rules (readInputs nd).safety (readInputs nd).description
    (mergeCfgs1 nd) (mergeTenancy0 nd)

/-- The node data as left behind by a successful merge. -/
def mergeNd3 (nd : Obj) : Obj :=
  writebackCfgs (writebackBasic nd (mergeB1 nd)) (mergeCleanOut nd).2

/-- C1 witness scenario: node 1 and node 4 present (with a conflicting
name), no node-3 configurations. -/
def scenC1w : Obj := [
  ("node1_basic_info", .jobj [("basic_info", .jobj [("name", .str "A")])]),
  ("node4_tenancy", .jobj [("property_level", .jobj [("name", .str "B")])])]
/-! ## Basic lemmas about the embedding -/

theorem objToList_ofList : ∀ l : Obj, (JsonObj.ofList l).toList = l
  | [] => rfl
  | (k, v) :: t => by simp [JsonObj.ofList, JsonObj.toList, objToList_ofList t]

theorem listToList_ofList : ∀ l : List Json, (JsonList.ofList l).toList = l
  | [] => rfl
  | h :: t => by simp [JsonList.ofList, JsonList.toList, listToList_ofList t]

theorem JsonObj.ofList_toList : ∀ o : JsonObj, JsonObj.ofList o.toList = o
  | .nil => rfl
  | .cons k v t => by simp [JsonObj.ofList, JsonObj.toList, JsonObj.ofList_toList t]

theorem Json.getKey_nil (k : String) : Json.getKey [] k = none := rfl

theorem Json.getKey_cons (k₀ : String) (v₀ : Json) (t : Obj) (k : String) :
    Json.getKey ((k₀, v₀) :: t) k = if k₀ = k then some v₀ else Json.getKey t k := by
  by_cases h : k₀ = k <;> simp [Json.getKey, List.find?, h]

theorem Json.getKey_setKey_self (l : Obj) (k : String) (v : Json) :
    Json.getKey (Json.setKey l k v) k = some v := by
  induction l with
  | nil => simp [Json.setKey, Json.getKey_cons]
  | cons p t ih =>
    obtain ⟨k₀, v₀⟩ := p
    by_cases h : k₀ = k
    · simp [Json.setKey, h, Json.getKey_cons]
    · simpa [Json.setKey, h, Json.getKey_cons] using ih

theorem Json.getKey_setKey_ne (l : Obj) (k k' : String) (v : Json) (h : k' ≠ k) :
    Json.getKey (Json.setKey l k v) k' = Json.getKey l k' := by
  induction l with
  | nil => simp [Json.setKey, Json.getKey_cons, Json.getKey_nil, Ne.symm h]
  | cons p t ih =>
    obtain ⟨k₀, v₀⟩ := p
    by_cases h0 : k₀ = k
    · subst h0
      simp [Json.setKey, Json.getKey_cons, Ne.symm h]
    · by_cases h1 : k₀ = k'
      · simp [Json.setKey, h0, h1, h, Json.getKey_cons]
      · simpa [Json.setKey, h0, Json.getKey_cons, h1] using ih

theorem Json.getD_setKey_self (l : Obj) (k : String) (v d : Json) :
    Json.getD (Json.setKey l k v) k d = v := by
  simp [Json.getD, Json.getKey_setKey_self]

theorem Json.getD_setKey_ne (l : Obj) (k k' : String) (v d : Json) (h : k' ≠ k) :
    Json.getD (Json.setKey l k v) k' d = Json.getD l k' d := by
  simp [Json.getD, Json.getKey_setKey_ne l k k' v h]

/-- Writing back the value a key already holds leaves the dict unchanged. -/
theorem Json.setKey_getKey_self (l : Obj) (k : String) (v : Json)
    (h : Json.getKey l k = some v) : Json.setKey l k v = l := by
  induction l with
  | nil => simp [Json.getKey_nil] at h
  | cons p t ih =>
    obtain ⟨k₀, v₀⟩ := p
    rw [Json.getKey_cons] at h
    by_cases h0 : k₀ = k
    · rw [if_pos h0] at h
      simp_all [Json.setKey]
    · rw [if_neg h0] at h
      simp [Json.setKey, h0, ih h]

theorem Json.hasKey_iff (l : Obj) (k : String) :
    Json.hasKey l k = true ↔ ∃ v, Json.getKey l k = some v := by
  induction l with
  | nil => simp [Json.hasKey, Json.getKey_nil]
  | cons p t ih =>
    obtain ⟨k₀, v₀⟩ := p
    by_cases h : k₀ = k
    · simp [Json.hasKey, Json.getKey_cons, h]
    · simpa [Json.hasKey, Json.getKey_cons, h] using ih

/-- A successful `getKey` returns an entry of the dict. -/
theorem Json.getKey_mem (l : Obj) (k : String) (v : Json)
    (h : Json.getKey l k = some v) : (k, v) ∈ l := by
  induction l with
  | nil => simp [Json.getKey_nil] at h
  | cons p t ih =>
    obtain ⟨k₀, v₀⟩ := p
    rw [Json.getKey_cons] at h
    by_cases h0 : k₀ = k
    · rw [if_pos h0] at h
      cases h
      subst h0
      exact List.mem_cons_self _ _
    · rw [if_neg h0] at h
      exact List.mem_cons_of_mem _ (ih h)

mutual

theorem pyEq_refl : ∀ v : Json, pyEq v v = true
  | .null => rfl
  | .bool b => by cases b <;> rfl
  | .int n => by simp [pyEq, numView]
  | .float q => by simp [pyEq, numView]
  | .str s => by simp [pyEq]
  | .arr xs => by simpa [pyEq] using pyEqList_refl xs
  | .obj kvs => by simpa [pyEq] using pyEqObj_refl kvs

theorem pyEqList_refl : ∀ xs : JsonList, pyEqList xs xs = true
  | .nil => rfl
  | .cons x xs => by simp [pyEqList, pyEq_refl x, pyEqList_refl xs]

theorem pyEqObj_refl : ∀ kvs : JsonObj, pyEqObj kvs kvs = true
  | .nil => rfl
  | .cons k v kvs => by simp [pyEqObj, pyEq_refl v, pyEqObj_refl kvs]

end

/-! ## The cleanup invariant (claim C10) -/

theorem isCleanArr_ofList : ∀ l : List Json, isCleanArr (JsonList.ofList l) = l.all isClean
  | [] => rfl
  | x :: t => by simp [JsonList.ofList, isCleanArr, isCleanArr_ofList t, List.all_cons]

theorem isCleanObj_ofList :
    ∀ l : Obj, isCleanObj (JsonObj.ofList l) = l.all (fun p => isClean p.2)
  | [] => rfl
  | p :: t => by
    cases p
    simp [JsonObj.ofList, isCleanObj, isCleanObj_ofList t, List.all_cons]

mutual

theorem cleanJson_isClean : ∀ (j c : Json), cleanJson j = some c → isClean c = true
  | .null, c, h => by simp [cleanJson, keepScalar, Json.truthy] at h
  | .bool b, c, h => by
    cases b <;> simp [cleanJson, keepScalar, Json.truthy] at h
    subst h; rfl
  | .int n, c, h => by
    by_cases hn : n = 0
    · simp [cleanJson, keepScalar, Json.truthy, hn] at h
    · simp [cleanJson, keepScalar, Json.truthy, hn] at h
      subst h
      simp [isClean, keepScalar, Json.truthy, hn]
  | .float q, c, h => by
    by_cases hq : q = 0
    · simp [cleanJson, keepScalar, Json.truthy, hq] at h
    · simp [cleanJson, keepScalar, Json.truthy, hq] at h
      subst h
      simp [isClean, keepScalar, Json.truthy, hq]
  | .str s, c, h => by
    by_cases hs : pyStrip s = ""
    · simp [cleanJson, keepScalar, hs] at h
    · simp [cleanJson, keepScalar, hs] at h
      subst h
      simp [isClean, keepScalar, hs]
  | .arr xs, c, h => by
    rw [cleanJson] at h
    rcases he : cleanArrEntries xs with _ | ⟨x, t⟩
    · rw [he] at h; exact absurd h (by simp)
    · rw [he] at h
      have hall := cleanArrEntries_allClean xs
      rw [he] at hall
      cases h
      have hArr : isCleanArr (JsonList.ofList (x :: t)) = true := by
        rw [isCleanArr_ofList]
        exact hall
      simpa [Json.jarr, JsonList.ofList, isClean, isCleanArr] using hArr
  | .obj kvs, c, h => by
    rw [cleanJson] at h
    rcases he : cleanObjEntries kvs with _ | ⟨p, t⟩
    · rw [he] at h; exact absurd h (by simp)
    · rw [he] at h
      have hall := cleanObjEntries_allClean kvs
      rw [he] at hall
      cases h
      have hObj : isCleanObj (JsonObj.ofList (p :: t)) = true := by
        rw [isCleanObj_ofList]
        exact hall
      obtain ⟨k, v⟩ := p
      simpa [Json.jobj, JsonObj.ofList, isClean, isCleanObj] using hObj

theorem cleanArrEntries_allClean : ∀ xs : JsonList, (cleanArrEntries xs).all isClean = true
  | .nil => rfl
  | .cons v rest => by
    rw [cleanArrEntries]
    rcases hv : cleanJson v with _ | cv
    · simpa using cleanArrEntries_allClean rest
    · simpa [cleanJson_isClean v cv hv] using cleanArrEntries_allClean rest

theorem cleanObjEntries_allClean :
    ∀ o : JsonObj, (cleanObjEntries o).all (fun p => isClean p.2) = true
  | .nil => rfl
  | .cons k v rest => by
    rw [cleanObjEntries]
    by_cases hf : isNoneOrEmptyStr v = true
    · simpa [hf] using cleanObjEntries_allClean rest
    · rcases hv : cleanJson v with _ | cv
      · simpa [hf, hv] using cleanObjEntries_allClean rest
      · simpa [hf, hv, cleanJson_isClean v cv hv] using cleanObjEntries_allClean rest

end

/-! ## Claims C10 and C9 -/

/-- C10: the merge's final cleanup pass (`_clean_merged_data`'s recursive
`clean_dict`) removes every falsy or whitespace-only value — including `0`,
`0.0` and `False`, not only empty strings/nulls/collections: every value
surviving `cleanJson` satisfies `isClean`, a dict with `0`/`0.0`/`False`/
whitespace values keeps only its filled entry, and a merged record never
shows a field extracted as `False` or `0`. -/
theorem claim_C10_clean_strips_falsy :
    (∀ j c, cleanJson j = some c → isClean c = true) ∧
    cleanJson (.jobj [("a", .int 0), ("b", .float 0), ("c", .bool false),
      ("d", .str "  "), ("e", .str "x"), ("f", .null)]) = some (.jobj [("e", .str "x")]) ∧
    probeKey (probeKey (mergeNodeData scenC10).1.merged_data "basic_info")
      "pets_allowed" = none ∧
    probeKey (probeKey (mergeNodeData scenC10).1.merged_data "basic_info")
      "deposit" = none ∧
    probeKey (probeKey (mergeNodeData scenC10).1.merged_data "basic_info")
      "name" = some (.str "Y") :=
  ⟨cleanJson_isClean, rfl, rfl, rfl, rfl⟩

/-- Witness for C10: a filled scalar survives the cleanup and is clean. -/
theorem claim_C10_witness :
    isClean (.str "x") = true :=
  claim_C10_clean_strips_falsy.1 (.str "x") (.str "x") rfl

/-- C9: the progress percentages recorded by successive progress-callback
invocations are non-decreasing (each stored value is
`max(previous, computed)`), regardless of the observed node states — in
particular they never decrease when a later node fails. -/
theorem claim_C9_progress_monotone :
    ∀ (p0 : ℚ) (evs : List (List NodeStatus × String)),
      List.Chain' (· ≤ ·) (p0 :: progressRecords p0 evs) := by
  intro p0 evs
  induction evs generalizing p0 with
  | nil => exact List.chain'_singleton p0
  | cons e rest ih =>
    obtain ⟨ns, ph⟩ := e
    have hrec : progressRecords p0 ((ns, ph) :: rest) =
        progressStep p0 ns ph :: progressRecords (progressStep p0 ns ph) rest := rfl
    rw [hrec]
    exact List.chain'_cons.mpr ⟨le_max_left _ _, ih (progressStep p0 ns ph)⟩

/-! ## Queue-insertion lemmas (claim C7) -/

theorem mem_insertQueue (jobs : List (String × JobPriority)) (p : ℕ) (jid : String) :
    ∀ (queue : List String) (b : String),
      b ∈ insertQueue jobs p jid queue ↔ b = jid ∨ b ∈ queue
  | [], b => by simp [insertQueue]
  | q :: rest, b => by
    rw [insertQueue]
    rcases hl : lookupAssoc jobs q with _ | qp
    · simp only
      rw [List.mem_cons, mem_insertQueue jobs p jid rest b, List.mem_cons]
      tauto
    · simp only
      by_cases hlt : p < priorityOrder qp
      · rw [if_pos hlt]
        simp only [List.mem_cons]
      · rw [if_neg hlt]
        rw [List.mem_cons, mem_insertQueue jobs p jid rest b, List.mem_cons]
        tauto

theorem insertQueue_sorted (jobs : List (String × JobPriority)) (jid : String) :
    ∀ (queue : List String),
      (∀ q ∈ queue, (lookupAssoc jobs q).isSome = true) →
      queue.Pairwise (fun a b => prioOf jobs a ≤ prioOf jobs b) →
      (insertQueue jobs (prioOf jobs jid) jid queue).Pairwise
        (fun a b => prioOf jobs a ≤ prioOf jobs b)
  | [], _, _ => by simp [insertQueue]
  | q :: rest, hk, hp => by
    rw [insertQueue]
    rcases hl : lookupAssoc jobs q with _ | qp
    · have := hk q (List.mem_cons_self q rest)
      rw [hl] at this
      simp at this
    · simp only
      have hq : prioOf jobs q = priorityOrder qp := by simp [prioOf, hl]
      rw [List.pairwise_cons] at hp
      by_cases hlt : prioOf jobs jid < priorityOrder qp
      · rw [if_pos hlt]
        rw [List.pairwise_cons]
        refine ⟨?_, List.pairwise_cons.mpr hp⟩
        intro b hb
        rcases List.mem_cons.mp hb with rfl | hb
        · rw [hq]; exact le_of_lt hlt
        · exact le_trans (le_of_lt (hq ▸ hlt)) (hp.1 b hb)
      · rw [if_neg hlt]
        rw [List.pairwise_cons]
        constructor
        · intro b hb
          rcases (mem_insertQueue jobs _ jid rest b).mp hb with rfl | hb
          · rw [hq]; exact Nat.le_of_not_lt hlt
          · exact hp.1 b hb
        · exact insertQueue_sorted jobs jid rest
            (fun x hx => hk x (List.mem_cons_of_mem q hx)) hp.2

theorem insertQueue_append (jobs : List (String × JobPriority)) (p : ℕ) (jid : String) :
    ∀ (queue : List String),
      (∀ q ∈ queue, (lookupAssoc jobs q).isSome = true → prioOf jobs q ≤ p) →
      insertQueue jobs p jid queue = queue ++ [jid]
  | [], _ => rfl
  | q :: rest, h => by
    rw [insertQueue]
    rcases hl : lookupAssoc jobs q with _ | qp
    · simp only [List.cons_append, List.cons.injEq, true_and]
      exact insertQueue_append jobs p jid rest
        (fun x hx => h x (List.mem_cons_of_mem q hx))
    · simp only
      have hq : prioOf jobs q = priorityOrder qp := by simp [prioOf, hl]
      have hle : priorityOrder qp ≤ p := by
        rw [← hq]
        exact h q (List.mem_cons_self q rest) (by simp [hl])
      rw [if_neg (Nat.not_lt.mpr hle)]
      simp only [List.cons_append, List.cons.injEq, true_and]
      exact insertQueue_append jobs p jid rest
        (fun x hx => h x (List.mem_cons_of_mem q hx))

/-- C7: with priorities `[low, urgent, normal]` enqueued in that order the
dequeue order is `[urgent, normal, low]` (`j2`, `j3`, `j1`); in general,
inserting a known job keeps the queue sorted by ascending `priority_order`
value (= priority descending), a job whose priority does not beat any queued
job's is appended at the end (FIFO within equal priority), and `QueuedJob`
ordering compares priority value descending then scheduled time ascending. -/
theorem claim_C7_priority_queue_order :
    (dequeueJob queueC7 = (some "j2", ["j3", "j1"]) ∧
      dequeueJob ["j3", "j1"] = (some "j3", ["j1"]) ∧
      dequeueJob ["j1"] = (some "j1", [])) ∧
    (∀ (jobs : List (String × JobPriority)) (queue : List String) (jid : String),
      (∀ q ∈ queue, (lookupAssoc jobs q).isSome = true) →
      queue.Pairwise (fun a b => prioOf jobs a ≤ prioOf jobs b) →
      (insertQueue jobs (prioOf jobs jid) jid queue).Pairwise
        (fun a b => prioOf jobs a ≤ prioOf jobs b)) ∧
    (∀ (jobs : List (String × JobPriority)) (queue : List String) (p : ℕ)
        (jid : String),
      (∀ q ∈ queue, (lookupAssoc jobs q).isSome = true → prioOf jobs q ≤ p) →
      insertQueue jobs p jid queue = queue ++ [jid]) ∧
    (∀ a b : QueuedJob, queuedJobLt a b = true ↔
      b.priorityValue < a.priorityValue ∨
        (a.priorityValue = b.priorityValue ∧ a.scheduled < b.scheduled)) := by
  refine ⟨⟨rfl, rfl, rfl⟩, ?_, ?_, ?_⟩
  · intro jobs queue jid hk hp
    exact insertQueue_sorted jobs jid queue hk hp
  · intro jobs queue p jid h
    exact insertQueue_append jobs p jid queue h
  · intro a b
    by_cases h : a.priorityValue = b.priorityValue
    · simp [queuedJobLt, h]
    · simp [queuedJobLt, h, Ne.symm h]

/-- Witness for C7: inserting `j3` (normal) into the queue `[j2]` keeps it
sorted, and a low-priority job is appended after `[j2, j3]`. -/
theorem claim_C7_witness :
    (insertQueue jobsC7 (prioOf jobsC7 "j3") "j3" ["j2"]).Pairwise
      (fun a b => prioOf jobsC7 a ≤ prioOf jobsC7 b) ∧
    insertQueue jobsC7 3 "j1" ["j2", "j3"] = ["j2", "j3", "j1"] :=
  ⟨claim_C7_priority_queue_order.2.1 jobsC7 ["j2"] "j3" (by decide) (by decide),
    claim_C7_priority_queue_order.2.2.1 jobsC7 ["j2", "j3"] 3 "j1" (by decide)⟩

/-! ## Retry-loop lemmas (claim C8) -/

theorem execSingleNodeGo_calls_le (maxR : ℕ) (d : ℚ)
    (ext : ℕ → Except String ExtractionResult) :
    ∀ (fuel attempt : ℕ) (node : NodeRec) (sleeps : List ℚ) (calls : ℕ),
      (execSingleNodeGo maxR d ext fuel attempt node sleeps calls).calls ≤ calls + fuel
  | 0, _, node, sleeps, calls => Nat.le_refl _
  | fuel + 1, attempt, node, sleeps, calls => by
    have ih : ∀ (node' : NodeRec) (sleeps' : List ℚ),
        (execSingleNodeGo maxR d ext fuel (attempt + 1) node' sleeps'
          (calls + 1)).calls ≤ calls + 1 + fuel :=
      fun node' sleeps' =>
        execSingleNodeGo_calls_le maxR d ext fuel (attempt + 1) node' sleeps' (calls + 1)
    rw [execSingleNodeGo]
    rcases ext attempt with e | r
    · dsimp only
      split
      · dsimp only; omega
      · exact le_trans (ih _ _) (by omega)
    · dsimp only
      split
      · dsimp only; omega
      · split
        · dsimp only; omega
        · exact le_trans (ih _ _) (by omega)

theorem execMemNodeGo_calls_le (maxR : ℕ) (ext : ℕ → Except String Json) :
    ∀ (fuel attempt : ℕ) (node : MemNodeRec) (sleeps : List ℚ) (calls : ℕ),
      (execMemNodeGo maxR ext fuel attempt node sleeps calls).calls ≤ calls + fuel
  | 0, _, node, sleeps, calls => Nat.le_refl _
  | fuel + 1, attempt, node, sleeps, calls => by
    have ih : ∀ (node' : MemNodeRec) (sleeps' : List ℚ),
        (execMemNodeGo maxR ext fuel (attempt + 1) node' sleeps'
          (calls + 1)).calls ≤ calls + 1 + fuel :=
      fun node' sleeps' =>
        execMemNodeGo_calls_le maxR ext fuel (attempt + 1) node' sleeps' (calls + 1)
    rw [execMemNodeGo]
    rcases ext attempt with e | j
    · dsimp only
      split
      · exact le_trans (ih _ _) (by omega)
      · dsimp only; omega
    · dsimp only; omega

/-- C8: what the retry loops actually do. `async_engine`'s
`_execute_single_node` with `max_retries = 2` and an always-failing
extraction makes exactly 3 attempts with linear sleeps
`retry_delay * attempt` and ends `failed` — but leaves `retry_count` at 0;
the in-memory engine's `_execute_node` with an always-raising retryable
(timeout) error makes 3 attempts, ends `failed` with `retry_count = 2`, and
sleeps the exponential `min(5 * 2^attempt, 30)` (5 then 10), not a linear
schedule; and in general both loops make at most `max_retries + 1` attempts. -/
theorem claim_C8_retry_behavior :
    (∀ d : ℚ,
      execSingleNode 2 d alwaysFailExt ⟨.pending, none, 0⟩ =
        ⟨⟨.failed, some "network error", 0⟩, 3, [d * 1, d * 2],
          ⟨false, some "network error"⟩⟩) ∧
    execMemNode 2 alwaysRaiseExt ⟨.pending, 0, none, none⟩ =
      ⟨⟨.failed, 2, some "timeout", some "Request timed out"⟩, 3, [5, 10], false⟩ ∧
    (∀ (maxR : ℕ) (d : ℚ) (ext : ℕ → Except String ExtractionResult)
        (node0 : NodeRec), (execSingleNode maxR d ext node0).calls ≤ maxR + 1) ∧
    (∀ (maxR : ℕ) (ext : ℕ → Except String Json) (node0 : MemNodeRec),
      (execMemNode maxR ext node0).calls ≤ maxR + 1) := by
  refine ⟨fun d => rfl, ?_, ?_, ?_⟩
  · have hcat : categorizeError "Request timed out" = "timeout" := rfl
    simp +decide [execMemNode, execMemNodeGo, alwaysRaiseExt, hcat, retryableCategories]
    norm_num
  · intro maxR d ext node0
    simpa using execSingleNodeGo_calls_le maxR d ext (maxR + 1) 0
      { node0 with status := .running } [] 0
  · intro maxR ext node0
    simpa using execMemNodeGo_calls_le maxR ext (maxR + 1) 0
      { node0 with status := .running } [] 0

/-- Counterexample for C8 as stated: the `async_engine` loop never writes
`retry_count` (it stays 0, not 2, after exhaustion), the in-memory loop
gives a non-retryable ("unknown"-category) error only a single attempt out
of a possible 3, and its backoff after three retries is the exponential
`[5, 10, 20]`, not linear. -/
theorem claim_C8_retry_cex :
    (execSingleNode 2 3 alwaysFailExt ⟨.pending, none, 0⟩).node.retry_count = 0 ∧
    (execSingleNode 2 3 alwaysFailExt ⟨.pending, none, 0⟩).node.status = .failed ∧
    (execMemNode 2 (fun _ => .error "boom") ⟨.pending, 0, none, none⟩).calls = 1 ∧
    categorizeError "boom" = "unknown" ∧
    (execMemNode 3 alwaysRaiseExt ⟨.pending, 0, none, none⟩).sleeps = [5, 10, 20] := by
  refine ⟨rfl, rfl, rfl, rfl, ?_⟩
  have hcat : categorizeError "Request timed out" = "timeout" := rfl
  simp +decide [execMemNode, execMemNodeGo, alwaysRaiseExt, hcat, retryableCategories]
  norm_num

/-! ## Engine outcome when every node failed (claim C2) -/

theorem successfulData_of_all_failed (results : Obj)
    (h : ∀ p ∈ results, (p.2.objGetD "success" .null).truthy = false) :
    successfulData results = [] := by
  suffices haux : ∀ (l : Obj), (∀ p ∈ l, (p.2.objGetD "success" .null).truthy = false) →
      ∀ acc : Obj, l.foldl (fun acc p =>
        if ((p.2.objGetD "success" Json.null).truthy = true) ∧
            ((p.2.objGetD "data" Json.null).truthy = true) then
          updAssoc acc (nodeIdToKey p.1) (p.2.objGetD "data" Json.null)
        else acc) acc = acc by
    exact haux results h []
  intro l hl
  induction l with
  | nil => intro acc; rfl
  | cons p t ih =>
    intro acc
    rw [List.foldl_cons]
    have hp := hl p (List.mem_cons_self p t)
    rw [if_neg (by simp [hp])]
    exact ih (fun x hx => hl x (List.mem_cons_of_mem p hx)) acc

theorem qualityCollected_of_all_failed (results : Obj)
    (h : ∀ p ∈ results, (p.2.objGetD "success" .null).truthy = false) :
    qualityCollected results = [] := by
  induction results with
  | nil => rfl
  | cons p t ih =>
    have hp := h p (List.mem_cons_self p t)
    have ht := ih (fun x hx => h x (List.mem_cons_of_mem p hx))
    simp only [qualityCollected] at ht
    simp only [qualityCollected, List.filterMap_cons]
    rw [if_neg (by simp [hp])]
    exact ht

theorem calcQualityScore_of_all_failed (results : Obj) (merged : Json)
    (h : ∀ p ∈ results, (p.2.objGetD "success" .null).truthy = false) :
    calcQualityScore results merged = 0 := by
  unfold calcQualityScore
  rw [qualityCollected_of_all_failed results h]
  rfl

theorem engineMerge_of_no_success (results : Obj)
    (h : successfulData results = []) :
    engineMergeExtractionResults results = .jobj [] := by
  unfold engineMergeExtractionResults
  rw [h]
  generalize Json.getD results "node_4_results" Json.null = w
  cases w with
  | str s =>
    by_cases hs : s = ""
    · subst hs; rfl
    · rw [if_pos (by simp [Json.truthy, hs])]; rfl
  | int n =>
    by_cases hn : n = 0
    · subst hn; rfl
    · rw [if_pos (by simp [Json.truthy, hn])]; rfl
  | float q =>
    by_cases hq : q = 0
    · subst hq; rfl
    · rw [if_pos (by simp [Json.truthy, hq])]; rfl
  | bool b => cases b <;> rfl
  | arr xs => cases xs <;> rfl
  | obj kvs => cases kvs <;> rfl
  | null => rfl

theorem fanOutRuns_of_all_failed (results : Obj)
    (h : ∀ p ∈ results, (p.2.objGetD "success" .null).truthy = false) :
    fanOutRuns results = false := by
  unfold fanOutRuns
  rcases h3 : Json.getKey results "node_3" with _ | v
  · simp [Json.getD, h3, Json.truthy, Json.objGetD]
  · have hv := h ("node_3", v) (Json.getKey_mem _ _ _ h3)
    simp only at hv
    simp [Json.getD, h3, hv]

/-- C2: when all four node extractions fail, `execute_extraction` still
returns `success=True` with an empty merged record and quality 0.0 (the
per-node failures are swallowed inside `_execute_node`), so `_process_job`
marks the job `completed` — not `failed` — and the node-4 fan-out is
skipped. -/
theorem claim_C2_all_nodes_failed_completes :
    ∀ (results : Obj) (prevProgress : ℚ),
      (∀ p ∈ results, (p.2.objGetD "success" .null).truthy = false) →
      executeExtractionOutcome results = ⟨true, .jobj [], 0, none⟩ ∧
      processJobOutcome (executeExtractionOutcome results) prevProgress =
        ⟨.completed, some (.jobj []), some 0, 100, "completed", none⟩ ∧
      fanOutRuns results = false := by
  intro results pp h
  have hsd := successfulData_of_all_failed results h
  have hm := engineMerge_of_no_success results hsd
  have hq := calcQualityScore_of_all_failed results (.jobj []) h
  have hout : executeExtractionOutcome results = ⟨true, .jobj [], 0, none⟩ := by
    simp only [executeExtractionOutcome]
    rw [hm, hq]
  exact ⟨hout, by rw [hout]; rfl, fanOutRuns_of_all_failed results h⟩

/-- Witness for C2: the concrete all-failed run `scenC2`. -/
theorem claim_C2_witness :
    executeExtractionOutcome scenC2 = ⟨true, .jobj [], 0, none⟩ ∧
    processJobOutcome (executeExtractionOutcome scenC2) 37 =
      ⟨.completed, some (.jobj []), some 0, 100, "completed", none⟩ ∧
    fanOutRuns scenC2 = false :=
  claim_C2_all_nodes_failed_completes scenC2 37 (by decide)

/-- Counterexample for C2 as stated: with all four nodes failed the job is
`completed`, not `failed` (`merged_data` empty and quality 0.0 do hold). -/
theorem claim_C2_all_nodes_failed_cex :
    scenC2.all (fun p => !(p.2.objGetD "success" .null).truthy) = true ∧
    (processJobOutcome (executeExtractionOutcome scenC2) 37).status ≠ .failed ∧
    (processJobOutcome (executeExtractionOutcome scenC2) 37).status = .completed ∧
    (executeExtractionOutcome scenC2).success = true :=
  ⟨by decide, by decide, rfl, rfl⟩

/-! ## Basic-info conflict resolution (claims C3 and C4) -/

/-- C3: for each overlapping field (`name`, `guarantor_required`, `source`,
`source_link`), when node 1 holds a non-blank value `a` and node 4's
property level a different non-empty value `b`, the resolution keeps `a` and
counts exactly one conflict; concretely, `name = "A"` vs `"B"` merges to
`"A"` with one conflict found and resolved. -/
theorem claim_C3_conflict_keeps_node1 :
    (∀ (f a b : String), f ∈ commonFields → pyStrip a ≠ "" → b ≠ "" → a ≠ b →
      resolveBasicInfoConflicts (.jobj [(f, .str a)]) (.jobj [(f, .str b)]) =
        ⟨.jobj [(f, .str a)], 1, 1, false⟩) ∧
    probeKey (probeKey (mergeNodeData scenC3).1.merged_data "basic_info") "name" =
      some (.str "A") ∧
    (mergeNodeData scenC3).1.conflicts_found = 1 ∧
    (mergeNodeData scenC3).1.conflicts_resolved = 1 := by
  refine ⟨?_, rfl, rfl, rfl⟩
  intro f a b hf hsa hb hab
  have ha : a ≠ "" := fun h => hsa (by rw [h]; rfl)
  fin_cases hf <;>
    simp [resolveBasicInfoConflicts, Json.jobj, objToList_ofList, commonFields,
      resolveFieldsAux, Json.getD, Json.getKey_cons, Json.getKey_nil, Json.truthy,
      pyEq, ha, hb, hab, hsa]

/-- Witness for C3: the `name` field with `"A"` against `"B"`. -/
theorem claim_C3_witness :
    resolveBasicInfoConflicts (.jobj [("name", .str "A")]) (.jobj [("name", .str "B")]) =
      ⟨.jobj [("name", .str "A")], 1, 1, false⟩ :=
  claim_C3_conflict_keeps_node1.1 "name" "A" "B" (by decide) (by decide) (by decide)
    (by decide)

/-- Counterexample for C3 as stated: a non-empty but whitespace-only node-1
name (`" "` vs `"B"`) is not kept — the resolution overwrites it with node
4's value. -/
theorem claim_C3_conflict_cex :
    (" " : String) ≠ "" ∧ (" " : String) ≠ "B" ∧
    probeKey (probeKey (mergeNodeData scenC3w).1.merged_data "basic_info") "name" =
      some (.str "B") :=
  ⟨by decide, by decide, by decide⟩

/-- C4 (documents the code bug): when node 1's value for an overlapping
field is empty and node 4's is non-empty, the guard
`if node1_value and node4_value and node1_value != node4_value` is falsy, so
the commented "use Node 4 value if Node 1 is empty" fallback never runs: the
empty value is left in place (and later cleaned away), no conflict is
counted, and the merged record carries no value for the field. -/
theorem claim_C4_empty_basic_fallback_unreachable :
    (∀ b : String, b ≠ "" →
      resolveBasicInfoConflicts (.jobj [("name", .str "")]) (.jobj [("name", .str b)]) =
        ⟨.jobj [("name", .str "")], 0, 0, false⟩) ∧
    probeKey (probeKey (mergeNodeData scenC4).1.merged_data "basic_info") "name" =
      none ∧
    probeKey (mergeNodeData scenC4).1.merged_data "basic_info" = none ∧
    (mergeNodeData scenC4).1.conflicts_found = 0 :=
  ⟨fun _ _ => rfl, rfl, rfl, rfl⟩

/-- Witness for C4: the empty name against `"B"`. -/
theorem claim_C4_witness :
    resolveBasicInfoConflicts (.jobj [("name", .str "")]) (.jobj [("name", .str "B")]) =
      ⟨.jobj [("name", .str "")], 0, 0, false⟩ :=
  claim_C4_empty_basic_fallback_unreachable.1 "B" (by decide)

/-! ## Tenancy-option deduplication (claim C5) -/

/-- C5: two tenancy options with the same `tenancy_key` (duration, price)
composite but different other fields keep exactly one entry: the seen-set
walk used when `merge_node_data` attaches options to a matched configuration
retains only the first, a concrete attach of two such options stores one,
and the engine-side dedup-by-duration of `_merge_extraction_results` keeps
one entry likewise. -/
theorem claim_C5_tenancy_dedup :
    (∀ t1 t2 : Obj, tenancyKey t1 = tenancyKey t2 →
      ([Json.jobj t1, Json.jobj t2].foldl tenancyDedupStep ([], [])).1 =
        [.jobj t1]) ∧
    attachTenancies [.jobj [("name", .str "X")]]
      [.jobj [("name", .str "X"), ("tenancy_options", .jarr [
        .jobj [("tenancy_length", .str "44"), ("price_per_week", .int 150),
          ("note", .str "a")],
        .jobj [("tenancy_length", .str "44"), ("price_per_week", .int 150),
          ("note", .str "b")]])]] =
      [.jobj [("name", .str "X"), ("tenancy_options", .jarr [
        .jobj [("tenancy_length", .str "44"), ("price_per_week", .int 150),
          ("note", .str "a")]])]] ∧
    (∀ t1 t2 : Obj, (tenancyDuration t1).truthy = true →
      (tenancyDuration t2).truthy = true → durationKey t1 = durationKey t2 →
      dedupTenanciesByDuration [.jobj t1, .jobj t2] = [.jobj t1]) := by
  refine ⟨?_, rfl, ?_⟩
  · intro t1 t2 hk
    simp [tenancyDedupStep, objToList_ofList, Json.jobj, List.foldl_cons,
      List.foldl_nil, ← hk]
  · intro t1 t2 h1 h2 hk
    simp [dedupTenanciesByDuration, objToList_ofList, Json.jobj, List.foldl_cons,
      List.foldl_nil, h1, h2, ← hk]

/-- Witness for C5: two options sharing `(44, 150)` but with different
`note` fields. -/
theorem claim_C5_witness :
    ([Json.jobj [("tenancy_length", .str "44"), ("price_per_week", .int 150),
        ("note", .str "a")],
      Json.jobj [("tenancy_length", .str "44"), ("price_per_week", .int 150),
        ("note", .str "b")]].foldl tenancyDedupStep ([], [])).1 =
      [.jobj [("tenancy_length", .str "44"), ("price_per_week", .int 150),
        ("note", .str "a")]] ∧
    dedupTenanciesByDuration
      [.jobj [("duration", .str "44 weeks"), ("price", .int 150), ("note", .str "a")],
        .jobj [("duration", .str "44 weeks"), ("price", .int 150), ("note", .str "b")]] =
      [.jobj [("duration", .str "44 weeks"), ("price", .int 150), ("note", .str "a")]] :=
  ⟨claim_C5_tenancy_dedup.1 _ _ rfl, claim_C5_tenancy_dedup.2.2 _ _ rfl rfl rfl⟩

/-! ## Min/Max price recomputation (claim C6) -/

/-- C6: the min/max recomputation applies to the `tenancy_options` the data
processor attaches, reading `price_per_week`: a configuration whose single
attached option parses to price `q` gets `Pricing."Min Price"/"Max Price"`
both set to `q` (overriding any model-provided values), and the spec's
"Studio A" scenario routed through node 4's `configurations` yields exactly
one configuration with one option and Min/Max both `"150.0"`. -/
theorem claim_C6_pricing_recompute :
    (∀ (nm : String) (t : Obj) (q : ℚ), tenancyPrices [.jobj t] = [q] →
      recomputePricing (.jobj [("name", .str nm), ("tenancy_options", .jarr [.jobj t])]) =
        .jobj [("name", .str nm), ("tenancy_options", .jarr [.jobj t]),
          ("Pricing", .jobj [("Min Price", .str (pyFloatStr q)),
            ("Max Price", .str (pyFloatStr q))])]) ∧
    (probeKey (mergeNodeData scenC6m).1.merged_data "configurations").map
      (fun j => (j.asArr.getD []).length) = some 1 ∧
    (probeKey (probeIdx (probeKey (mergeNodeData scenC6m).1.merged_data
        "configurations") 0) "tenancy_options").map
      (fun j => (j.asArr.getD []).length) = some 1 ∧
    probeKey (probeKey (probeIdx (probeKey (mergeNodeData scenC6m).1.merged_data
      "configurations") 0) "Pricing") "Min Price" = some (.str "150.0") ∧
    probeKey (probeKey (probeIdx (probeKey (mergeNodeData scenC6m).1.merged_data
      "configurations") 0) "Pricing") "Max Price" = some (.str "150.0") := by
  refine ⟨?_, rfl, rfl, rfl, rfl⟩
  intro nm t q hq
  simp only [Json.jobj, Json.jarr] at hq
  simp [recomputePricing, Json.jobj, objToList_ofList, listToList_ofList,
    Json.jarr, Json.getD, Json.getKey_cons, Json.getKey_nil, hq, Json.setKey]

/-- Witness for C6: one option priced `150` (an `int`) recomputes Min/Max to
`float(150)`, rendered `"150.0"`. -/
theorem claim_C6_witness :
    recomputePricing (.jobj [("name", .str "Studio A"), ("tenancy_options", .jarr [
      .jobj [("tenancy_length", .str "44 weeks"), ("price_per_week", .int 150)]])]) =
      .jobj [("name", .str "Studio A"), ("tenancy_options", .jarr [
        .jobj [("tenancy_length", .str "44 weeks"), ("price_per_week", .int 150)]]),
        ("Pricing", .jobj [("Min Price", .str (pyFloatStr ((150 : ℤ) : ℚ))),
          ("Max Price", .str (pyFloatStr ((150 : ℤ) : ℚ)))])] :=
  claim_C6_pricing_recompute.1 "Studio A"
    [("tenancy_length", .str "44 weeks"), ("price_per_week", .int 150)]
    ((150 : ℤ) : ℚ) rfl

/-- Counterexample for C6 as stated: in the spec's own fan-out scenario
(`scenC6`, handled by `_merge_extraction_results`) the options end up under
`tenancies` and no `Pricing` (no Min/Max) is computed at all. -/
theorem claim_C6_fanout_cex :
    (probeKey (some (engineMergeExtractionResults scenC6)) "configurations").map
      (fun j => (j.asArr.getD []).length) = some 1 ∧
    (probeKey (probeIdx (probeKey (some (engineMergeExtractionResults scenC6))
        "configurations") 0) "tenancies").map
      (fun j => (j.asArr.getD []).length) = some 1 ∧
    probeKey (probeIdx (probeKey (some (engineMergeExtractionResults scenC6))
      "configurations") 0) "Pricing" = none ∧
    probeKey (probeIdx (probeKey (some (engineMergeExtractionResults scenC6))
      "configurations") 0) "Min Price" = none :=
  ⟨rfl, rfl, rfl, rfl⟩

/-! ## Idempotence analysis of `merge_node_data` (claim C1) -/

theorem mergeNodeData_eq (nd : Obj) :
    mergeNodeData nd =
      if mergeErr nd = true then
        (⟨false, none, 0, 0, ["Data merge failed"], 0⟩,
          writebackBasic nd (mergeB1 nd))
      else
        (⟨true, some (mergeCleanOut nd).1, mergeCF nd, mergeCR nd, [],
          mergeQualityScore (mergeCleanOut nd).1 (mergeNd3 nd)⟩, mergeNd3 nd) := rfl

/-! ## Resolve-twice analysis and the merge idempotence claim (C1) -/

theorem resolveFieldsAux_cons (pl : Obj) (f : String) (rest : List String)
    (b : Obj) (cf cr : ℕ) :
    resolveFieldsAux pl (f :: rest) b cf cr =
      if (Json.getD b f (.str "")).truthy = true ∧
          (Json.getD pl f (.str "")).truthy = true ∧
          ¬ pyEq (Json.getD b f (.str "")) (Json.getD pl f (.str "")) = true then
        match Json.getD b f (.str "") with
        | .str s =>
          if pyStrip s = "" then
            resolveFieldsAux pl rest (Json.setKey b f (Json.getD pl f (.str "")))
              (cf + 1) (cr + 1)
          else resolveFieldsAux pl rest b (cf + 1) (cr + 1)
        | _ => ⟨b, cf + 1, cr, true⟩
      else resolveFieldsAux pl rest b cf cr := rfl

theorem resolveFieldsAux_obj_getD (pl : Obj) :
    ∀ (fs : List String) (b : Obj) (cf cr : ℕ) (g : String) (d : Json), g ∉ fs →
      Json.getD (resolveFieldsAux pl fs b cf cr).obj g d = Json.getD b g d
  | [], b, cf, cr, g, d, _ => rfl
  | f :: rest, b, cf, cr, g, d, hg => by
    have hgf : g ≠ f := fun h => hg (h ▸ List.mem_cons_self f rest)
    have hgr : g ∉ rest := fun h => hg (List.mem_cons_of_mem f h)
    rw [resolveFieldsAux_cons]
    by_cases hc : (Json.getD b f (.str "")).truthy = true ∧
        (Json.getD pl f (.str "")).truthy = true ∧
        ¬ pyEq (Json.getD b f (.str "")) (Json.getD pl f (.str "")) = true
    · rw [if_pos hc]
      cases hv1 : Json.getD b f (Json.str "") <;> (dsimp only; try rfl)
      rename_i s
      by_cases hs : pyStrip s = ""
      · rw [if_pos hs]
        rw [resolveFieldsAux_obj_getD pl rest _ _ _ g d hgr]
        exact Json.getD_setKey_ne b f g _ d hgf
      · rw [if_neg hs]
        exact resolveFieldsAux_obj_getD pl rest b _ _ g d hgr
    · rw [if_neg hc]
      exact resolveFieldsAux_obj_getD pl rest b cf cr g d hgr

theorem resolveFieldsAux_idem (pl : Obj) :
    ∀ (fs : List String), fs.Nodup → ∀ (b : Obj) (cf cr cf' cr' : ℕ),
      (resolveFieldsAux pl fs (resolveFieldsAux pl fs b cf cr).obj cf' cr').obj =
          (resolveFieldsAux pl fs b cf cr).obj ∧
        (resolveFieldsAux pl fs (resolveFieldsAux pl fs b cf cr).obj cf' cr').err =
          (resolveFieldsAux pl fs b cf cr).err
  | [], _, b, cf, cr, cf', cr' => ⟨rfl, rfl⟩
  | f :: rest, hnd, b, cf, cr, cf', cr' => by
    have hf : f ∉ rest := (List.nodup_cons.mp hnd).1
    have hrest : rest.Nodup := (List.nodup_cons.mp hnd).2
    have ih := resolveFieldsAux_idem pl rest hrest
    by_cases hc : (Json.getD b f (.str "")).truthy = true ∧
        (Json.getD pl f (.str "")).truthy = true ∧
        ¬ pyEq (Json.getD b f (.str "")) (Json.getD pl f (.str "")) = true
    · rw [resolveFieldsAux_cons pl f rest b cf cr, if_pos hc]
      cases hv1 : Json.getD b f (Json.str "") <;> dsimp only
      all_goals try
        (rw [resolveFieldsAux_cons pl f rest b cf' cr', if_pos hc, hv1]
         dsimp only
         exact ⟨rfl, rfl⟩)
      rename_i s
      by_cases hs : pyStrip s = ""
      · rw [if_pos hs]
        rw [resolveFieldsAux_cons pl f rest _ cf' cr']
        have hpres : Json.getD (resolveFieldsAux pl rest
            (Json.setKey b f (Json.getD pl f (Json.str ""))) (cf + 1) (cr + 1)).obj
            f (Json.str "") = Json.getD pl f (Json.str "") := by
          rw [resolveFieldsAux_obj_getD pl rest _ _ _ f _ hf]
          exact Json.getD_setKey_self b f _ _
        rw [hpres]
        rw [if_neg (fun hcon => hcon.2.2 (pyEq_refl _))]
        exact ih (Json.setKey b f (Json.getD pl f (Json.str ""))) (cf + 1) (cr + 1)
          cf' cr'
      · rw [if_neg hs]
        rw [resolveFieldsAux_cons pl f rest _ cf' cr']
        have hpres : Json.getD (resolveFieldsAux pl rest b (cf + 1) (cr + 1)).obj
            f (Json.str "") = Json.getD b f (Json.str "") :=
          resolveFieldsAux_obj_getD pl rest b _ _ f _ hf
        rw [hpres]
        rw [if_pos hc, hv1]
        dsimp only
        rw [if_neg hs]
        exact ih b (cf + 1) (cr + 1) (cf' + 1) (cr' + 1)
    · rw [resolveFieldsAux_cons pl f rest b cf cr, if_neg hc]
      rw [resolveFieldsAux_cons pl f rest _ cf' cr']
      have hpres : Json.getD (resolveFieldsAux pl rest b cf cr).obj f (Json.str "") =
          Json.getD b f (Json.str "") :=
        resolveFieldsAux_obj_getD pl rest b _ _ f _ hf
      rw [hpres]
      rw [if_neg hc]
      exact ih b cf cr cf' cr'

theorem commonFields_nodup : commonFields.Nodup := by decide

theorem resolveBasicInfoConflicts_obj (bo plo : JsonObj) :
    resolveBasicInfoConflicts (.obj bo) (.obj plo) =
      ⟨.jobj (resolveFieldsAux plo.toList commonFields bo.toList 0 0).obj,
        (resolveFieldsAux plo.toList commonFields bo.toList 0 0).found,
        (resolveFieldsAux plo.toList commonFields bo.toList 0 0).resolved,
        (resolveFieldsAux plo.toList commonFields bo.toList 0 0).err⟩ := rfl

theorem writebackBasic_none (nd : Obj) (b : Json)
    (h1 : Json.getKey nd "node1_basic_info" = none) : writebackBasic nd b = nd := by
  unfold writebackBasic
  rw [h1]

theorem writebackCfgs_no3 (nd : Obj) (cfgs : List Json)
    (h3 : Json.getKey nd "node3_configuration" = none) :
    writebackCfgs nd cfgs = nd := by
  unfold writebackCfgs
  rw [h3]

theorem readInputs_basicInfo_of_obj (nd : Obj) (o : JsonObj)
    (h1 : Json.getKey nd "node1_basic_info" = some (.obj o)) :
    (readInputs nd).basicInfo = Json.getD o.toList "basic_info" (.jobj []) := by
  simp only [readInputs, nodeObjOf, h1]

theorem writebackBasic_obj (nd : Obj) (o : JsonObj) (b : Json)
    (h1 : Json.getKey nd "node1_basic_info" = some (.obj o)) :
    writebackBasic nd b =
      if Json.hasKey o.toList "basic_info" = true then
        Json.setKey nd "node1_basic_info" (.jobj (Json.setKey o.toList "basic_info" b))
      else nd := by
  unfold writebackBasic
  rw [h1]

theorem readInputs_writeback (nd : Obj) (o : JsonObj) (b1 : Json)
    (h1 : Json.getKey nd "node1_basic_info" = some (.obj o)) :
    readInputs (Json.setKey nd "node1_basic_info"
        (.jobj (Json.setKey o.toList "basic_info" b1))) =
      { readInputs nd with basicInfo := b1 } := by
  have hn1 : Json.getKey (Json.setKey nd "node1_basic_info"
      (.jobj (Json.setKey o.toList "basic_info" b1))) "node1_basic_info" =
      some (.jobj (Json.setKey o.toList "basic_info" b1)) :=
    Json.getKey_setKey_self nd _ _
  simp only [Json.jobj] at hn1
  simp only [readInputs, nodeObjOf, hn1, h1, Json.jobj, objToList_ofList,
    Json.getKey_setKey_ne, Json.getD_setKey_self, Json.getD_setKey_ne,
    ne_eq, String.reduceEq, not_false_eq_true]

theorem writebackBasic_of_nonobj (nd : Obj) (b v : Json)
    (h1 : Json.getKey nd "node1_basic_info" = some v) (hv : v.asObj = none) :
    writebackBasic nd b = nd := by
  unfold writebackBasic
  rw [h1]
  cases v <;> first | rfl | simp [Json.asObj] at hv

theorem resolveBasicInfoConflicts_fallback (b pl : Json)
    (h : b.asObj = none ∨ pl.asObj = none) :
    resolveBasicInfoConflicts b pl = ⟨b, 0, 0, true⟩ := by
  cases b <;> cases pl <;> first | rfl | simp [Json.asObj] at h

theorem jobj_toList (o : JsonObj) : Json.jobj o.toList = Json.obj o := by
  unfold Json.jobj
  rw [JsonObj.ofList_toList]

/-- C1: `merge_node_data` is deterministic on input values, but it mutates
its argument, so "calling the merge twice" means running it again on the
node data it left behind. When the inputs carry no `node3_configuration`
(so no configuration dicts are aliased into the merged record), the only
mutation is the conflict-resolved `basic_info`, re-resolving it is a no-op,
and the second call returns a byte-identical merged record. -/
theorem claim_C1_merge_idempotent_without_node3 :
    ∀ nd : Obj, Json.getKey nd "node3_configuration" = none →
      (mergeNodeData ((mergeNodeData nd).2)).1.merged_data =
        (mergeNodeData nd).1.merged_data := by
  intro nd h3
  have hdone : (mergeNodeData nd).2 = nd →
      (mergeNodeData ((mergeNodeData nd).2)).1.merged_data =
        (mergeNodeData nd).1.merged_data := fun h => by rw [h]
  have hsnd : writebackBasic nd (mergeB1 nd) = nd → (mergeNodeData nd).2 = nd := by
    intro hb
    rw [mergeNodeData_eq nd]
    by_cases herr : mergeErr nd = true
    · rw [if_pos herr]
      exact hb
    · rw [if_neg herr]
      show mergeNd3 nd = nd
      unfold mergeNd3
      rw [hb, writebackCfgs_no3 _ _ h3]
  rcases h1 : Json.getKey nd "node1_basic_info" with _ | v1
  · exact hdone (hsnd (writebackBasic_none nd _ h1))
  rcases hv1o : v1.asObj with _ | ol
  · exact hdone (hsnd (writebackBasic_of_nonobj nd _ v1 h1 hv1o))
  obtain ⟨o, rfl⟩ : ∃ o, v1 = Json.obj o := by
    cases v1 <;> simp [Json.asObj] at hv1o <;> exact ⟨_, rfl⟩
  by_cases hbk : Json.hasKey o.toList "basic_info" = true
  case neg =>
    apply hdone
    apply hsnd
    rw [writebackBasic_obj nd o _ h1, if_neg hbk]
  obtain ⟨v0, hv0⟩ := (Json.hasKey_iff o.toList "basic_info").mp hbk
  have hbi : (readInputs nd).basicInfo = v0 := by
    rw [readInputs_basicInfo_of_obj nd o h1]
    simp [Json.getD, hv0]
  rcases hres : mergeRes nd with _ | r
  · -- res none: no mutation of basic_info
    apply hdone
    apply hsnd
    have hb1 : mergeB1 nd = v0 := by
      unfold mergeB1
      rw [hres]
      exact hbi
    rw [writebackBasic_obj nd o _ h1, if_pos hbk, hb1,
      Json.setKey_getKey_self o.toList _ v0 hv0, jobj_toList,
      Json.setKey_getKey_self nd _ _ h1]
  -- res = some r
  have hfb_done : r.basicInfo = v0 →
      (mergeNodeData ((mergeNodeData nd).2)).1.merged_data =
        (mergeNodeData nd).1.merged_data := by
    intro hfb
    apply hdone
    apply hsnd
    have hb1 : mergeB1 nd = v0 := by
      unfold mergeB1
      rw [hres]
      exact hfb
    rw [writebackBasic_obj nd o _ h1, if_pos hbk, hb1,
      Json.setKey_getKey_self o.toList _ v0 hv0, jobj_toList,
      Json.setKey_getKey_self nd _ _ h1]
  rcases hn4 : (readInputs nd).n4 with _ | o4
  · unfold mergeRes resolveOfInputs at hres
    rw [hn4] at hres
    simp at hres
  by_cases hpl : Json.hasKey o4 "property_level" = true
  case neg =>
    unfold mergeRes resolveOfInputs at hres
    rw [hn4] at hres
    dsimp only at hres
    rw [if_neg hpl] at hres
    simp at hres
  have hr : r = resolveBasicInfoConflicts v0 (Json.getD o4 "property_level" .null) := by
    unfold mergeRes resolveOfInputs at hres
    rw [hn4] at hres
    dsimp only at hres
    rw [if_pos hpl, hbi] at hres
    injection hres with hres'
    exact hres'.symm
  rcases hplv : Json.getD o4 "property_level" Json.null with _ | b' | n' | q' | s' | xs' | plo
  all_goals try
    (apply hfb_done
     rw [hr, hplv, resolveBasicInfoConflicts_fallback]
     exact Or.inr rfl)
  -- property_level is a dict; now case on v0
  rw [hplv] at hr
  cases v0
  all_goals try
    (apply hfb_done
     rw [hr, resolveBasicInfoConflicts_fallback]
     exact Or.inl rfl)
  rename_i bo
  -- core case: v0 = .obj bo, property_level = .obj plo
  set raux := resolveFieldsAux plo.toList commonFields bo.toList 0 0 with hraux
  set ndB := Json.setKey nd "node1_basic_info"
    (.jobj (Json.setKey o.toList "basic_info" (.jobj raux.obj))) with hndB
  have hrr : r = ⟨.jobj raux.obj, raux.found, raux.resolved, raux.err⟩ := by
    rw [hr, resolveBasicInfoConflicts_obj]
  have hb1 : mergeB1 nd = .jobj raux.obj := by
    unfold mergeB1
    rw [hres]
    dsimp only
    rw [hrr]
  have hwb : writebackBasic nd (mergeB1 nd) = ndB := by
    rw [writebackBasic_obj nd o _ h1, if_pos hbk, hb1, hndB]
  have hF1 : (mergeNodeData nd).2 = ndB := by
    rw [mergeNodeData_eq nd]
    by_cases herr : mergeErr nd = true
    · rw [if_pos herr]
      exact hwb
    · rw [if_neg herr]
      show mergeNd3 nd = _
      unfold mergeNd3
      rw [hwb, writebackCfgs_no3 _ _ (by
        rw [hndB, Json.getKey_setKey_ne nd _ _ _ (by decide)]
        exact h3)]
  rw [hF1]
  have hri : readInputs ndB = { readInputs nd with basicInfo := .jobj raux.obj } := by
    rw [hndB]
    exact readInputs_writeback nd o _ h1
  have hres2 : mergeRes ndB =
      some (resolveBasicInfoConflicts (.jobj raux.obj) (.obj plo)) := by
    unfold mergeRes resolveOfInputs
    rw [hri]
    dsimp only
    rw [hn4]
    dsimp only
    rw [if_pos hpl, hplv]
  set raux2 := resolveFieldsAux plo.toList commonFields raux.obj 0 0 with hraux2
  have hobj2 : resolveBasicInfoConflicts (.jobj raux.obj) (.obj plo) =
      ⟨.jobj raux2.obj, raux2.found, raux2.resolved, raux2.err⟩ := by
    show resolveBasicInfoConflicts (.obj (JsonObj.ofList raux.obj)) (.obj plo) = _
    rw [resolveBasicInfoConflicts_obj, objToList_ofList]
  have hidem := resolveFieldsAux_idem plo.toList commonFields commonFields_nodup
    bo.toList 0 0 0 0
  have h2obj : raux2.obj = raux.obj := by
    rw [hraux2, hraux]
    exact hidem.1
  have h2err : raux2.err = raux.err := by
    rw [hraux2, hraux]
    exact hidem.2
  have herrA : mergeErr nd = raux.err := by
    unfold mergeErr
    rw [hres]
    dsimp only
    rw [hrr]
  have herrB : mergeErr ndB = raux.err := by
    unfold mergeErr
    rw [hres2]
    dsimp only
    rw [hobj2, ← h2err]
  have hb1B : mergeB1 ndB = .jobj raux2.obj := by
    unfold mergeB1
    rw [hres2]
    dsimp only
    rw [hobj2]
  rw [mergeNodeData_eq ndB, mergeNodeData_eq nd]
  by_cases herr : raux.err = true
  · rw [if_pos (herrB.trans herr), if_pos (herrA.trans herr)]
  · rw [if_neg (fun hcon => herr (herrB ▸ hcon)),
      if_neg (fun hcon => herr (herrA ▸ hcon))]
    dsimp only
    have hco : mergeCleanOut ndB = mergeCleanOut nd := by
      unfold mergeCleanOut mergeCfgs1 mergeN4Cfgs mergeTenancy0
      rw [hri, hb1B, hb1]
      dsimp only
      rw [h2obj]
    rw [hco]

/-- Witness for C1: a node-1/node-4 input without configurations merges to
the same record twice. -/
theorem claim_C1_witness :
    (mergeNodeData ((mergeNodeData scenC1w).2)).1.merged_data =
      (mergeNodeData scenC1w).1.merged_data :=
  claim_C1_merge_idempotent_without_node3 scenC1w rfl

/-- Counterexample for C1 as stated: on `scenC1` the merge mutates its
input (the returned node data differs from what was passed in), and running
the merge again on that mutated state yields a different merged record —
the second run also attaches tenancy options and pricing to the
`Basic."Configuration Name"` configuration, because the first run wrote a
top-level `name` into it. -/
theorem claim_C1_merge_not_idempotent_cex :
    (mergeNodeData scenC1).2 ≠ scenC1 ∧
    (mergeNodeData ((mergeNodeData scenC1).2)).1.merged_data ≠
      (mergeNodeData scenC1).1.merged_data :=
  ⟨by decide, by decide⟩

end POT
